import Mathlib

/-!
# bigip_exporter: collectors and scrape handler

A shallow embedding of `collector/node_collector.go`, `collector/vs_collector.go`
and `bigip_exporter.go`.

Conventions of the embedding

* A Go `string` is a Lean `String`; a Go `int` is an `Int` (the only arithmetic
  the collectors perform is `/ 8`, which cannot overflow). A Go `int` is 64
  bits wide, so its magnitude is below `2 ^ 64`.
* A Go slice that may be `nil` is an `Option (List _)`: `none` is the `nil`
  slice, `some []` is an empty slice that is not `nil`.
* A Go `map` that is ranged over is the list of its entries in the order the
  iteration visits them. The fetched map is an input, so every theorem holds
  for every order of its entries. The catalog map `metrics` is visited in the
  order of the source; what is proved about the catalog samples (their number,
  their membership, their list up to permutation) does not depend on an order.
* A send on the `ch` channel appends to a list of metrics.
* A run-time panic (index out of range) stops the function: what was sent
  before stays sent, nothing later happens.
* A `float64` that comes from an integer is kept as the integer it holds after
  the rounding of the conversion, see `Float64` and `float64`.
* The Prometheus client library and the f5 client library are modelled at
  their interface: descriptors, constant metrics, gauge and summary vectors.
  A descriptor records whether the library refuses it (an invalid metric or
  label name), and `MustNewConstMetric` panics on a refused descriptor.
-/

namespace BigipExporter

/-! ## Go runtime and `strings` -/

/-- A `float64` value: `ofInt v` is the float whose value is the integer `v`
(every float a conversion from an integer produces, and the constants `0` and
`1`), `seconds d` is `Duration.Seconds()` of a duration of `d` nanoseconds. -/
inductive Float64 where
  | ofInt (i : Int)
  | seconds (d : Int)
deriving DecidableEq, Repr

/-- The number of low bits a magnitude loses when it is cut to the 53
significant bits of a `float64`: the number of halvings that bring it below
`2 ^ 53`, at most `fuel`. -/
def lostBits : Nat → Nat → Nat
  | 0, _ => 0
  | fuel + 1, n => if n < 2 ^ 53 then 0 else lostBits fuel (n / 2) + 1

/-- Rounding of a magnitude below `2 ^ 64` to 53 significant bits, to the
nearest representable value and to the even one of two nearest (the rounding
of IEEE 754, which the Go conversion applies). -/
def roundFloat64 (n : Nat) : Nat :=
  let shift := lostBits 11 n
  let q := n / 2 ^ shift
  let r := n % 2 ^ shift
  if 2 ^ shift < 2 * r ∨ (2 * r = 2 ^ shift ∧ q % 2 = 1) then (q + 1) * 2 ^ shift
  else q * 2 ^ shift

/-- The Go conversion `float64(i)` of an integer: the float nearest to `i`. It
is exact for magnitudes up to `2 ^ 53` and rounds above. -/
def float64 (i : Int) : Float64 :=
  Float64.ofInt (if i < 0 then -(roundFloat64 i.natAbs : Int) else (roundFloat64 i.natAbs : Int))

/-- Splitting a character sequence at every occurrence of `sep`; the result
always has one more segment than there are occurrences. -/
def splitChars (sep : Char) : List Char → List (List Char)
  | [] => [[]]
  | c :: cs =>
    if c = sep then [] :: splitChars sep cs
    else
      match splitChars sep cs with
      | [] => [[c]]
      | seg :: segs => (c :: seg) :: segs

/-- The Go function `strings.Split(s, sep)` for a separator of one character,
the only form the collectors use (`"/"` and `"~"`). -/
def strings.Split (s : String) (sep : Char) : List String :=
  (splitChars sep s.data).map String.mk

/-- Go slice indexing `xs[i]`: `none` stands for the index-out-of-range panic. -/
def index {α : Type} (xs : List α) (i : Int) : Option α :=
  if i < 0 then none else xs.get? i.toNat

/-- Go `len(xs)` as a signed integer. -/
def len {α : Type} (xs : List α) : Int :=
  (xs.length : Int)

/-! ## Prometheus client library -/

/-- The Go type `prometheus.ValueType`. -/
inductive ValueType where
  | CounterValue
  | GaugeValue
  | UntypedValue
deriving DecidableEq, Repr

/-- The Go type `prometheus.Desc`: fully-qualified name, help text, the names of
the variable labels (the collectors pass no constant labels), and whether the
library has recorded an error for the descriptor (`err != nil`). -/
structure Desc where
  fqName : String
  help : String
  variableLabels : List String
  err : Bool
deriving DecidableEq, Repr

/-- A character that may start a metric name: a letter, `_` or `:`. -/
def isNameStart (c : Char) : Bool :=
  (decide ('a' ≤ c) && decide (c ≤ 'z')) || (decide ('A' ≤ c) && decide (c ≤ 'Z'))
    || c == '_' || c == ':'

/-- A character that may stand in a metric name: one that may start it, or a
digit. -/
def isNameChar (c : Char) : Bool :=
  isNameStart c || (decide ('0' ≤ c) && decide (c ≤ '9'))

/-- The library function `model.IsValidMetricName`: the name is not empty, is
made of letters, digits, `_` and `:`, and does not start with a digit. -/
def IsValidMetricName (n : String) : Bool :=
  match n.data with
  | [] => false
  | c :: cs => isNameStart c && cs.all isNameChar

/-- The library function `checkLabelName`: the name is not empty, is made of
letters, digits and `_`, does not start with a digit and does not start with
`__`. -/
def checkLabelName (l : String) : Bool :=
  match l.data with
  | [] => false
  | '_' :: '_' :: _ => false
  | c :: cs =>
    (isNameStart c && c != ':') && cs.all (fun d => isNameChar d && d != ':')

/-- The library function `prometheus.BuildFQName`: the non-empty parts joined
by an underscore, and the empty string when `name` is empty. -/
def BuildFQName (ns subsystem name : String) : String :=
  if name = "" then ""
  else if ns ≠ "" ∧ subsystem ≠ "" then ns ++ "_" ++ subsystem ++ "_" ++ name
  else if ns ≠ "" then ns ++ "_" ++ name
  else if subsystem ≠ "" then subsystem ++ "_" ++ name
  else name

/-- The library function `prometheus.NewDesc(fqName, help, variableLabels, nil)`.
The descriptor carries an error when the name is not a valid metric name, when
a label name is not valid, or when a label name occurs twice. (Some versions
of the library also refuse an empty help text; the collectors pass none.) -/
def NewDesc (fqName help : String) (variableLabels : List String) : Desc :=
  { fqName := fqName
    help := help
    variableLabels := variableLabels
    err := !IsValidMetricName fqName || !variableLabels.all checkLabelName
      || !decide variableLabels.Nodup }

/-- A value of the Go interface `prometheus.Metric` as sent on the channel:
a constant metric built by `MustNewConstMetric`, a child of a `GaugeVec`, or a
child of a `SummaryVec` (with the observations it has received). -/
inductive Metric where
  | constMetric (desc : Desc) (valueType : ValueType) (value : Float64)
      (labelValues : List String)
  | gauge (desc : Desc) (labelValues : List String) (value : Float64)
  | summary (desc : Desc) (labelValues : List String) (observations : List Float64)
deriving DecidableEq, Repr

/-- The descriptor of a metric (`Metric.Desc()`). -/
def Metric.desc : Metric → Desc
  | Metric.constMetric d _ _ _ => d
  | Metric.gauge d _ _ => d
  | Metric.summary d _ _ => d

/-- The label values of a metric. -/
def Metric.labelValues : Metric → List String
  | Metric.constMetric _ _ _ lvs => lvs
  | Metric.gauge _ lvs _ => lvs
  | Metric.summary _ lvs _ => lvs

/-- Whether a metric is a constant metric, the form of every catalog sample. -/
def Metric.isConst : Metric → Bool
  | Metric.constMetric _ _ _ _ => true
  | _ => false

/-- The library function
`prometheus.MustNewConstMetric(desc, valueType, value, labels...)`. `none` is
its panic: on a descriptor that carries an error, and on a number of label
values that differs from the number of variable labels. (The library also
refuses label values that are not valid UTF-8; a `String` always is.) -/
def MustNewConstMetric (desc : Desc) (valueType : ValueType) (value : Float64)
    (labelValues : List String) : Option Metric :=
  if desc.err then none
  else if desc.variableLabels.length ≠ labelValues.length then none
  else some (Metric.constMetric desc valueType value labelValues)

/-- The Go type `prometheus.GaugeVec`: a descriptor and one gauge per tuple of
label values that has been used, in order of first use. -/
structure GaugeVec where
  desc : Desc
  children : List (List String × Float64)
deriving DecidableEq, Repr

/-- The library function `prometheus.NewGaugeVec` for the options
`Namespace`, `Name`, `Help` and the given label names. -/
def NewGaugeVec (ns name help : String) (labelNames : List String) : GaugeVec :=
  { desc := NewDesc (BuildFQName ns "" name) help labelNames, children := [] }

/-- The statement `g.WithLabelValues(lvs...).Set(v)`: the child for `lvs` is
created when it does not exist, and its value becomes `v`. -/
def GaugeVec.Set (g : GaugeVec) (lvs : List String) (v : Float64) : GaugeVec :=
  if g.children.any (fun p => decide (p.1 = lvs)) then
    { g with children := g.children.map (fun p => if p.1 = lvs then (p.1, v) else p) }
  else
    { g with children := g.children ++ [(lvs, v)] }

/-- The method `GaugeVec.Collect`: one metric per child. -/
def GaugeVec.Collect (g : GaugeVec) : List Metric :=
  g.children.map (fun p => Metric.gauge g.desc p.1 p.2)

/-- The method `GaugeVec.Describe`. -/
def GaugeVec.Describe (g : GaugeVec) : List Desc :=
  [g.desc]

/-- The Go type `prometheus.SummaryVec`: a descriptor and one summary per tuple
of label values that has been used, each with its observations. -/
structure SummaryVec where
  desc : Desc
  children : List (List String × List Float64)
deriving DecidableEq, Repr

/-- The library function `prometheus.NewSummaryVec` for the options
`Namespace`, `Name`, `Help` and the given label names. -/
def NewSummaryVec (ns name help : String) (labelNames : List String) : SummaryVec :=
  { desc := NewDesc (BuildFQName ns "" name) help labelNames, children := [] }

/-- The statement `s.WithLabelValues(lvs...).Observe(v)`. -/
def SummaryVec.Observe (s : SummaryVec) (lvs : List String) (v : Float64) : SummaryVec :=
  if s.children.any (fun p => decide (p.1 = lvs)) then
    { s with children := s.children.map (fun p => if p.1 = lvs then (p.1, p.2 ++ [v]) else p) }
  else
    { s with children := s.children ++ [(lvs, [v])] }

/-- The method `SummaryVec.Collect`: one metric per child. -/
def SummaryVec.Collect (s : SummaryVec) : List Metric :=
  s.children.map (fun p => Metric.summary s.desc p.1 p.2)

/-- The method `SummaryVec.Describe`. -/
def SummaryVec.Describe (s : SummaryVec) : List Desc :=
  [s.desc]

/-! ## f5 client library: statistics records -/

/-- A statistics field holding a counter. The f5 client library declares it
outside the repository as `struct { Value int }`; the collectors convert it
with `float64(...)` and divide it by the integer constant 8. -/
structure StatValue where
  Value : Int
deriving DecidableEq, Repr

/-- A statistics field holding a text, declared by the f5 client library as
`struct { Description string }`. -/
structure StatDescription where
  Description : String
deriving DecidableEq, Repr

/-- The fields of `f5.LBNodeStatsInnerEntries` that the node catalog reads. -/
structure LBNodeStatsInnerEntries where
  Serverside_bitsOut : StatValue
  Serverside_maxConns : StatValue
  Serverside_curConns : StatValue
  Serverside_pktsOut : StatValue
  TotRequests : StatValue
  Serverside_pktsIn : StatValue
  Serverside_totConns : StatValue
  Serverside_bitsIn : StatValue
  CurSessions : StatValue
  Status_availabilityState : StatDescription
deriving DecidableEq, Repr

/-- The fields of `f5.LBVirtualStatsInnerEntries` that the virtual-server
catalog reads. -/
structure LBVirtualStatsInnerEntries where
  Syncookie_accepts : StatValue
  Ephemeral_bitsOut : StatValue
  Clientside_bitsOut : StatValue
  FiveMinAvgUsageRatio : StatValue
  FiveSecAvgUsageRatio : StatValue
  Syncookie_syncookies : StatValue
  Ephemeral_slowKilled : StatValue
  Ephemeral_pktsOut : StatValue
  Syncookie_rejects : StatValue
  Syncookie_syncacheCurr : StatValue
  CsMinConnDur : StatValue
  CsMeanConnDur : StatValue
  Syncookie_swsyncookieInstance : StatValue
  Syncookie_syncacheOver : StatValue
  Syncookie_hwAccepts : StatValue
  Ephemeral_pktsIn : StatValue
  Clientside_totConns : StatValue
  Ephemeral_curConns : StatValue
  Clientside_evictedConns : StatValue
  OneMinAvgUsageRatio : StatValue
  Ephemeral_evictedConns : StatValue
  Clientside_slowKilled : StatValue
  Clientside_bitsIn : StatValue
  Ephemeral_maxConns : StatValue
  Syncookie_hwsyncookieInstance : StatValue
  Clientside_pktsOut : StatValue
  Clientside_curConns : StatValue
  Ephemeral_bitsIn : StatValue
  Clientside_pktsIn : StatValue
  TotRequests : StatValue
  CsMaxConnDur : StatValue
  Syncookie_hwSyncookies : StatValue
  Clientside_maxConns : StatValue
  Ephemeral_totConns : StatValue
  Status_availabilityState : StatDescription
deriving DecidableEq, Repr

/-! ## collector package -/

/-- The Go types `nodeMetric` and `vsMetric`, which differ only in the type
`E` of the statistics record that `extract` reads. -/
structure CatalogMetric (E : Type) where
  desc : Desc
  extract : E → Float64
  valueType : ValueType

/-- The Go type `nodeMetric`. -/
abbrev nodeMetric := CatalogMetric LBNodeStatsInnerEntries

/-- The Go type `vsMetric`. -/
abbrev vsMetric := CatalogMetric LBVirtualStatsInnerEntries

/-- The Go types `NodeCollector` and `VSCollector`, which have the same fields
(the device handle `bigip` is left out: the result of its fetch is an input of
`Collect`). The `metrics` map is the list of its entries. -/
structure Collector (E : Type) where
  metrics : List (String × CatalogMetric E)
  partitionsList : Option (List String)
  collectorScrapeStatus : GaugeVec
  collectorScrapeDuration : SummaryVec

/-- The Go type `NodeCollector`. -/
abbrev NodeCollector := Collector LBNodeStatsInnerEntries

/-- The Go type `VSCollector`. -/
abbrev VSCollector := Collector LBVirtualStatsInnerEntries

/-- Modelled from the spec: `stringInSlice`, a helper of the collector package
whose source file is not available; the spec describes the test as
"`partition` is not a member" of the allow-list, so the helper is list
membership. -/
def stringInSlice (a : String) (list : List String) : Bool :=
  list.contains a

/-- The derivation of `(partition, name)` from a record key, the first five
statements of the loop body of `Collect` in both collectors:
`keyParts[len(keyParts)-2]`, split at `~`, then `pathParts[1]` and
`pathParts[len(pathParts)-1]`. `none` is an index-out-of-range panic. -/
def keyLabels (key : String) : Option (String × String) :=
  let keyParts := strings.Split key '/'
  match index keyParts (len keyParts - 2) with
  | none => none
  | some path =>
    let pathParts := strings.Split path '~'
    match index pathParts 1 with
    | none => none
    | some partition =>
      match index pathParts (len pathParts - 1) with
      | none => none
      | some name => some (partition, name)

/-- The inner loop of `Collect`: one constant metric per catalog entry, sent on
the channel `ch`. The result is the channel content and whether the loop ran
to its end (`false`: `MustNewConstMetric` panicked). -/
def sendMetrics {E : Type} (entries : E) (labels : List String) :
    List (String × CatalogMetric E) → List Metric → List Metric × Bool
  | [], ch => (ch, true)
  | km :: rest, ch =>
    match MustNewConstMetric km.2.desc km.2.valueType (km.2.extract entries) labels with
    | none => (ch, false)
    | some metric => sendMetrics entries labels rest (ch ++ [metric])

/-- The outer loop of `Collect` over the entries of the fetched map (each map
value is represented by its `NestedStats.Entries`). The result is the channel
content and whether the loop ran to its end (`false`: it panicked). -/
def rangeEntries {E : Type} (c : Collector E) : List (String × E) → List Metric → List Metric × Bool
  | [], ch => (ch, true)
  | (key, stats) :: rest, ch =>
    match keyLabels key with
    | none => (ch, false)
    | some (partition, name) =>
      if c.partitionsList ≠ none ∧ ¬ stringInSlice partition (c.partitionsList.getD []) then
        rangeEntries c rest ch
      else
        match sendMetrics stats [partition, name] c.metrics ch with
        | (ch, false) => (ch, false)
        | (ch, true) => rangeEntries c rest ch

/-- The effect of one call of `Collect`: the collector afterwards, the metrics
sent on the channel in order, and whether the call panicked. -/
structure Collected (E : Type) where
  collector : Collector E
  ch : List Metric
  panicked : Bool

/-- The body shared by `NodeCollector.Collect` and `VSCollector.Collect`, which
differ only in the label value `collector` (`"node"`, `"vs"`) and in the type
of the records. `fetch` is the result of `ShowAllNodeStats` or
`ShowAllVirtualStats` (an error, or the entries), `elapsed` the value of
`float64(elapsed.Seconds())`. -/
def Collector.Collect {E : Type} (collector : String) (c : Collector E)
    (fetch : Except String (List (String × E))) (elapsed : Float64) : Collected E :=
  let finish (c : Collector E) (ch : List Metric) : Collected E :=
    let c := { c with
      collectorScrapeDuration := c.collectorScrapeDuration.Observe [collector] elapsed }
    let ch := ch ++ c.collectorScrapeStatus.Collect
    let ch := ch ++ c.collectorScrapeDuration.Collect
    { collector := c, ch := ch, panicked := false }
  match fetch with
  | Except.error _ =>
    finish { c with collectorScrapeStatus := c.collectorScrapeStatus.Set [collector] (float64 0) } []
  | Except.ok allStats =>
    match rangeEntries c allStats [] with
    | (ch, false) => { collector := c, ch := ch, panicked := true }
    | (ch, true) =>
      finish { c with collectorScrapeStatus := c.collectorScrapeStatus.Set [collector] (float64 1) } ch

/-- The method `Describe` of both collectors. -/
def Collector.Describe {E : Type} (c : Collector E) : List Desc :=
  c.metrics.map (fun km => km.2.desc)
    ++ c.collectorScrapeStatus.Describe ++ c.collectorScrapeDuration.Describe

/-- The catalog of `NewNodeCollector`, in the order of the source. -/
def nodeMetrics (ns : String) : List (String × nodeMetric) :=
  let subsystem := "node"
  let labelNames := ["partition", "node"]
  [ ("serverside_bytesOut",
      { desc := NewDesc (BuildFQName ns subsystem "serverside_bytes_transmitted_total")
          "serverside_bytes_transmitted_total" labelNames
        extract := fun entries => float64 (Int.tdiv entries.Serverside_bitsOut.Value 8)
        valueType := ValueType.CounterValue }),
    ("serverside_maxConns",
      { desc := NewDesc (BuildFQName ns subsystem "serverside_connections_concurrent_max")
          "serverside_connections_concurrent_max" labelNames
        extract := fun entries => float64 entries.Serverside_maxConns.Value
        valueType := ValueType.CounterValue }),
    ("serverside_curConns",
      { desc := NewDesc (BuildFQName ns subsystem "serverside_connections")
          "serverside_connections" labelNames
        extract := fun entries => float64 entries.Serverside_curConns.Value
        valueType := ValueType.GaugeValue }),
    ("serverside_pktsOut",
      { desc := NewDesc (BuildFQName ns subsystem "serverside_packets_transmitted_total")
          "serverside_packets_transmitted_total" labelNames
        extract := fun entries => float64 entries.Serverside_pktsOut.Value
        valueType := ValueType.CounterValue }),
    ("totRequests",
      { desc := NewDesc (BuildFQName ns subsystem "requests_total")
          "requests_total" labelNames
        extract := fun entries => float64 entries.TotRequests.Value
        valueType := ValueType.CounterValue }),
    ("serverside_pktsIn",
      { desc := NewDesc (BuildFQName ns subsystem "serverside_packets_received_total")
          "serverside_packets_received_total" labelNames
        extract := fun entries => float64 entries.Serverside_pktsIn.Value
        valueType := ValueType.CounterValue }),
    ("serverside_totConns",
      { desc := NewDesc (BuildFQName ns subsystem "serverside_connections_total")
          "serverside_connections_total" labelNames
        extract := fun entries => float64 entries.Serverside_totConns.Value
        valueType := ValueType.CounterValue }),
    ("serverside_bytesIn",
      { desc := NewDesc (BuildFQName ns subsystem "serverside_bytes_received_total")
          "serverside_bytes_received_total" labelNames
        extract := fun entries => float64 (Int.tdiv entries.Serverside_bitsIn.Value 8)
        valueType := ValueType.CounterValue }),
    ("curSessions",
      { desc := NewDesc (BuildFQName ns subsystem "sessions")
          "sessions" labelNames
        extract := fun entries => float64 entries.CurSessions.Value
        valueType := ValueType.GaugeValue }),
    ("status_availabilityState",
      { desc := NewDesc (BuildFQName ns subsystem "status_availability_state")
          "status_availability_state" labelNames
        extract := fun entries =>
          if entries.Status_availabilityState.Description = "available" then float64 1
          else float64 0
        valueType := ValueType.GaugeValue }) ]

/-- The constructor `NewNodeCollector(bigip, namespace, partitionsList)`. -/
def NewNodeCollector (ns : String) (partitionsList : Option (List String)) : NodeCollector :=
  { metrics := nodeMetrics ns
    collectorScrapeStatus :=
      NewGaugeVec ns "collector_scrape_status" "collector_scrape_status" ["collector"]
    collectorScrapeDuration :=
      NewSummaryVec ns "collector_scrape_duration" "collector_scrape_duration" ["collector"]
    partitionsList := partitionsList }

/-- The method `(c *NodeCollector) Collect(ch)`. -/
def NodeCollector.Collect (c : NodeCollector)
    (fetch : Except String (List (String × LBNodeStatsInnerEntries)))
    (elapsed : Float64) : Collected LBNodeStatsInnerEntries :=
  Collector.Collect "node" c fetch elapsed

/-- The method `(c *NodeCollector) Describe(ch)`. -/
def NodeCollector.Describe (c : NodeCollector) : List Desc :=
  Collector.Describe c

/-- The catalog of `NewVSCollector`, in the order of the source. -/
def vsMetrics (ns : String) : List (String × vsMetric) :=
  let subsystem := "vs"
  let labelNames := ["partition", "vs"]
  [ ("syncookie_accepts",
      { desc := NewDesc (BuildFQName ns subsystem "syncookie_accepts")
          "syncookie_accepts" labelNames
        extract := fun entries => float64 entries.Syncookie_accepts.Value
        valueType := ValueType.CounterValue }),
    ("ephemeral_bytesOut",
      { desc := NewDesc (BuildFQName ns subsystem "ephemeral_bytes_transmitted_total")
          "ephemeral_bytes_transmitted_total" labelNames
        extract := fun entries => float64 (Int.tdiv entries.Ephemeral_bitsOut.Value 8)
        valueType := ValueType.CounterValue }),
    ("clientside_bytesOut",
      { desc := NewDesc (BuildFQName ns subsystem "clientside_bytes_transmitted_total")
          "clientside_bytes_transmitted_total" labelNames
        extract := fun entries => float64 (Int.tdiv entries.Clientside_bitsOut.Value 8)
        valueType := ValueType.CounterValue }),
    ("fiveMinAvgUsageRatio",
      { desc := NewDesc (BuildFQName ns subsystem "five_min_avg_usage_ratio")
          "five_min_avg_usage_ratio" labelNames
        extract := fun entries => float64 entries.FiveMinAvgUsageRatio.Value
        valueType := ValueType.GaugeValue }),
    ("fiveSecAvgUsageRatio",
      { desc := NewDesc (BuildFQName ns subsystem "five_sec_avg_usage_ratio")
          "five_sec_avg_usage_ratio" labelNames
        extract := fun entries => float64 entries.FiveSecAvgUsageRatio.Value
        valueType := ValueType.GaugeValue }),
    ("syncookie_syncookies",
      { desc := NewDesc (BuildFQName ns subsystem "syncookie_syncookies")
          "syncookie_syncookies" labelNames
        extract := fun entries => float64 entries.Syncookie_syncookies.Value
        valueType := ValueType.CounterValue }),
    ("ephemeral_slowKilled",
      { desc := NewDesc (BuildFQName ns subsystem "ephemeral_slow_killed")
          "ephemeral_slow_killed" labelNames
        extract := fun entries => float64 entries.Ephemeral_slowKilled.Value
        valueType := ValueType.CounterValue }),
    ("ephemeral_pktsOut",
      { desc := NewDesc (BuildFQName ns subsystem "ephemeral_packets_transmitted_total")
          "ephemeral_packets_transmitted_total" labelNames
        extract := fun entries => float64 entries.Ephemeral_pktsOut.Value
        valueType := ValueType.CounterValue }),
    ("syncookie_rejects",
      { desc := NewDesc (BuildFQName ns subsystem "syncookie_rejects")
          "syncookie_rejects" labelNames
        extract := fun entries => float64 entries.Syncookie_rejects.Value
        valueType := ValueType.CounterValue }),
    ("syncookie_syncacheCurr",
      { desc := NewDesc (BuildFQName ns subsystem "syncookie_syncache_curr")
          "syncookie_syncache_curr" labelNames
        extract := fun entries => float64 entries.Syncookie_syncacheCurr.Value
        valueType := ValueType.GaugeValue }),
    ("csMinConnDur",
      { desc := NewDesc (BuildFQName ns subsystem "cs_min_conn_dur")
          "cs_min_conn_dur" labelNames
        extract := fun entries => float64 entries.CsMinConnDur.Value
        valueType := ValueType.GaugeValue }),
    ("csMeanConnDur",
      { desc := NewDesc (BuildFQName ns subsystem "cs_mean_conn_dur")
          "cs_mean_conn_dur" labelNames
        extract := fun entries => float64 entries.CsMeanConnDur.Value
        valueType := ValueType.GaugeValue }),
    ("syncookie_swsyncookieInstance",
      { desc := NewDesc (BuildFQName ns subsystem "syncookie_swsyncookie_instance")
          "syncookie_swsyncookie_instance" labelNames
        extract := fun entries => float64 entries.Syncookie_swsyncookieInstance.Value
        valueType := ValueType.CounterValue }),
    ("syncookie_syncacheOver",
      { desc := NewDesc (BuildFQName ns subsystem "syncookie_syncache_over")
          "syncookie_syncache_over" labelNames
        extract := fun entries => float64 entries.Syncookie_syncacheOver.Value
        valueType := ValueType.CounterValue }),
    ("syncookie_hwAccepts",
      { desc := NewDesc (BuildFQName ns subsystem "syncookie_hw_accepts")
          "syncookie_hw_accepts" labelNames
        extract := fun entries => float64 entries.Syncookie_hwAccepts.Value
        valueType := ValueType.CounterValue }),
    ("ephemeral_pktsIn",
      { desc := NewDesc (BuildFQName ns subsystem "ephemeral_packets_received_total")
          "ephemeral_packets_received_total" labelNames
        extract := fun entries => float64 entries.Ephemeral_pktsIn.Value
        valueType := ValueType.CounterValue }),
    ("clientside_totConns",
      { desc := NewDesc (BuildFQName ns subsystem "clientside_connections_total")
          "clientside_connections_total" labelNames
        extract := fun entries => float64 entries.Clientside_totConns.Value
        valueType := ValueType.CounterValue }),
    ("ephemeral_curConns",
      { desc := NewDesc (BuildFQName ns subsystem "ephemeral_connections")
          "ephemeral_connections" labelNames
        extract := fun entries => float64 entries.Ephemeral_curConns.Value
        valueType := ValueType.GaugeValue }),
    ("clientside_evictedConns",
      { desc := NewDesc (BuildFQName ns subsystem "clientside_connections_evicted_total")
          "clientside_connections_evicted_total" labelNames
        extract := fun entries => float64 entries.Clientside_evictedConns.Value
        valueType := ValueType.CounterValue }),
    ("oneMinAvgUsageRatio",
      { desc := NewDesc (BuildFQName ns subsystem "one_min_avg_usage_ratio")
          "one_min_avg_usage_ratio" labelNames
        extract := fun entries => float64 entries.OneMinAvgUsageRatio.Value
        valueType := ValueType.GaugeValue }),
    ("ephemeral_evictedConns",
      { desc := NewDesc (BuildFQName ns subsystem "ephemeral_connections_evicted_total")
          "ephemeral_connections_evicted_total" labelNames
        extract := fun entries => float64 entries.Ephemeral_evictedConns.Value
        valueType := ValueType.CounterValue }),
    ("clientside_slowKilled",
      { desc := NewDesc (BuildFQName ns subsystem "clientside_slow_killed")
          "clientside_slow_killed" labelNames
        extract := fun entries => float64 entries.Clientside_slowKilled.Value
        valueType := ValueType.CounterValue }),
    ("clientside_bytesIn",
      { desc := NewDesc (BuildFQName ns subsystem "clientside_bytes_received_total")
          "clientside_bytes_received_total" labelNames
        extract := fun entries => float64 (Int.tdiv entries.Clientside_bitsIn.Value 8)
        valueType := ValueType.CounterValue }),
    ("ephemeral_maxConns",
      { desc := NewDesc (BuildFQName ns subsystem "ephemeral_connections_concurrent_max")
          "ephemeral_connections_concurrent_max" labelNames
        extract := fun entries => float64 entries.Ephemeral_maxConns.Value
        valueType := ValueType.CounterValue }),
    ("syncookie_hwsyncookieInstance",
      { desc := NewDesc (BuildFQName ns subsystem "syncookie_hwsyncookie_instance")
          "syncookie_hwsyncookie_instance" labelNames
        extract := fun entries => float64 entries.Syncookie_hwsyncookieInstance.Value
        valueType := ValueType.CounterValue }),
    ("clientside_pktsOut",
      { desc := NewDesc (BuildFQName ns subsystem "clientside_packets_transmitted_total")
          "clientside_packets_transmitted_total" labelNames
        extract := fun entries => float64 entries.Clientside_pktsOut.Value
        valueType := ValueType.CounterValue }),
    ("clientside_curConns",
      { desc := NewDesc (BuildFQName ns subsystem "clientside_connections")
          "clientside_connections" labelNames
        extract := fun entries => float64 entries.Clientside_curConns.Value
        valueType := ValueType.GaugeValue }),
    ("ephemeral_bytesIn",
      { desc := NewDesc (BuildFQName ns subsystem "ephemeral_bytes_received_total")
          "ephemeral_bytes_received_total" labelNames
        extract := fun entries => float64 (Int.tdiv entries.Ephemeral_bitsIn.Value 8)
        valueType := ValueType.CounterValue }),
    ("clientside_pktsIn",
      { desc := NewDesc (BuildFQName ns subsystem "clientside_packets_received_total")
          "clientside_packets_received_total" labelNames
        extract := fun entries => float64 entries.Clientside_pktsIn.Value
        valueType := ValueType.CounterValue }),
    ("totRequests",
      { desc := NewDesc (BuildFQName ns subsystem "requests_total")
          "requests_total" labelNames
        extract := fun entries => float64 entries.TotRequests.Value
        valueType := ValueType.CounterValue }),
    ("csMaxConnDur",
      { desc := NewDesc (BuildFQName ns subsystem "cs_max_conn_dur")
          "cs_max_conn_dur" labelNames
        extract := fun entries => float64 entries.CsMaxConnDur.Value
        valueType := ValueType.CounterValue }),
    ("syncookie_hwSyncookies",
      { desc := NewDesc (BuildFQName ns subsystem "syncookie_hw_syncookies")
          "syncookie_hw_syncookies" labelNames
        extract := fun entries => float64 entries.Syncookie_hwSyncookies.Value
        valueType := ValueType.CounterValue }),
    ("clientside_maxConns",
      { desc := NewDesc (BuildFQName ns subsystem "clientside_connections_concurrent_max")
          "clientside_connections_concurrent_max" labelNames
        extract := fun entries => float64 entries.Clientside_maxConns.Value
        valueType := ValueType.CounterValue }),
    ("ephemeral_totConns",
      { desc := NewDesc (BuildFQName ns subsystem "ephemeral_connections_total")
          "ephemeral_connections_total" labelNames
        extract := fun entries => float64 entries.Ephemeral_totConns.Value
        valueType := ValueType.CounterValue }),
    ("status_availabilityState",
      { desc := NewDesc (BuildFQName ns subsystem "status_availability_state")
          "status_availability_state" labelNames
        extract := fun entries =>
          if entries.Status_availabilityState.Description = "available" then float64 1
          else float64 0
        valueType := ValueType.GaugeValue }) ]

/-- The constructor `NewVSCollector(bigip, namespace, partitionsList)`. -/
def NewVSCollector (ns : String) (partitionsList : Option (List String)) : VSCollector :=
  { metrics := vsMetrics ns
    collectorScrapeStatus :=
      NewGaugeVec ns "collector_scrape_status" "collector_scrape_status" ["collector"]
    collectorScrapeDuration :=
      NewSummaryVec ns "collector_scrape_duration" "collector_scrape_duration" ["collector"]
    partitionsList := partitionsList }

/-- The method `(c *VSCollector) Collect(ch)`. -/
def VSCollector.Collect (c : VSCollector)
    (fetch : Except String (List (String × LBVirtualStatsInnerEntries)))
    (elapsed : Float64) : Collected LBVirtualStatsInnerEntries :=
  Collector.Collect "vs" c fetch elapsed

/-- The method `(c *VSCollector) Describe(ch)`. -/
def VSCollector.Describe (c : VSCollector) : List Desc :=
  Collector.Describe c

/-! ## main package: the scrape handler and the reload endpoint -/

/-- The Go type `url.Values`, a map from a parameter name to its values. -/
abbrev Values := List (String × List String)

/-- The method `url.Values.Get`: the first value of the parameter, and the
empty string when the parameter has no value. -/
def Values.Get (v : Values) (key : String) : String :=
  match v.lookup key with
  | some (x :: _) => x
  | _ => ""

/-- The parts of `http.Request` that the handlers read: the method and the
parsed query of the URL. -/
structure Request where
  Method : String
  Query : Values
deriving DecidableEq, Repr

/-- An `http.ResponseWriter`: the status code and body written so far. A
handler that returns without writing answers with status 200. -/
structure ResponseWriter where
  written : Option (Nat × String)
deriving DecidableEq, Repr

/-- The library function `http.Error(w, body, code)`: the status code and the
text of the reply (the library ends it with a newline); a second write of the
header is ignored by the server. -/
def http.Error (w : ResponseWriter) (body : String) (code : Nat) : ResponseWriter :=
  match w.written with
  | none => { written := some (code, body) }
  | some _ => w

/-- The status code the client receives once the handler has returned. -/
def ResponseWriter.statusCode (w : ResponseWriter) : Nat :=
  match w.written with
  | none => 200
  | some (code, _) => code

/-- Modelled from the spec: the type `Credentials` of the configuration, whose
source file is not available: a user, a password and the choice between token
and basic authentication, under the field names the handler reads. -/
structure Credentials where
  User : String
  Password : String
  BasicAuth : Bool
deriving DecidableEq, Repr

/-- The authentication methods of the f5 client, `f5.TOKEN` and `f5.BASIC_AUTH`. -/
inductive AuthMethod where
  | TOKEN
  | BASIC_AUTH
deriving DecidableEq, Repr

/-- The calls a scrape makes to its collaborators. -/
inductive Call where
  | CredentialsForTarget (target : String)
  | f5New (target user password : String) (authMethod : AuthMethod)
  | NewBigipCollector (ns : String) (partitionsList : Option (List String))
  | MustRegister
  | ServeHTTP
deriving DecidableEq, Repr

/-- The effect of one run of a handler: the response written by the handler
itself, the calls it made in order, and whether it terminated the process
(`log.Fatalf`). -/
structure HandlerRun where
  w : ResponseWriter
  calls : List Call
  exited : Bool
deriving DecidableEq, Repr

/-- The handler returned by `newHandler()`. `credentialsForTarget` is the
method `sc.CredentialsForTarget` of the configuration at the time of the
request; `w` is a fresh response writer. -/
def newHandler (credentialsForTarget : String → Except String Credentials)
    (w : ResponseWriter) (r : Request) : HandlerRun :=
  let target := r.Query.Get "target"
  if target = "" then
    { w := http.Error w "'target' parameter must be specified" 400, calls := [], exited := false }
  else
    match credentialsForTarget target with
    | Except.error _ =>
      { w := w, calls := [Call.CredentialsForTarget target], exited := true }
    | Except.ok targetCredentials =>
      let user := targetCredentials.User
      let password := targetCredentials.Password
      let basicauth := targetCredentials.BasicAuth
      let exporterPartitionsList : Option (List String) := none
      let authMethod := if basicauth then AuthMethod.BASIC_AUTH else AuthMethod.TOKEN
      { w := w
        calls := [Call.CredentialsForTarget target,
          Call.f5New target user password authMethod,
          Call.NewBigipCollector "bigip" exporterPartitionsList,
          Call.MustRegister,
          Call.ServeHTTP]
        exited := false }

/-- The result of `updateConfiguration`: the response and whether a reload was
requested from the worker. -/
structure ReloadRun where
  w : ResponseWriter
  reloadRequested : Bool
deriving DecidableEq, Repr

/-- The handler `updateConfiguration`. `reload` is the answer the worker sends
back on the channel `rc` when a reload is requested: `none` for `nil`, or the
error text of `sc.ReloadConfig`. -/
def updateConfiguration (reload : Option String) (w : ResponseWriter) (r : Request) : ReloadRun :=
  if r.Method = "POST" then
    match reload with
    | some err =>
      { w := http.Error w ("failed to reload config: " ++ err) 500, reloadRequested := true }
    | none => { w := w, reloadRequested := true }
  else
    { w := http.Error w "POST method expected" 400, reloadRequested := false }

/-- The answer of the reload worker of `main` to a request received on
`reloadCh`: it calls `sc.ReloadConfig(*configFile)`, whose result is
`reloadConfig` (`none` for `nil`, or the error text), and sends the error, or
`nil`, back on the channel of the request. -/
def reloadWorker (reloadConfig : Option String) : Option String :=
  match reloadConfig with
  | some err => some err
  | none => none

/-! ## Credential store (source file not available) -/

/-- Modelled from the spec: a target match rule of the configuration, a pattern
(an exact host or a glob; the empty pattern marks the default rule) with the
credentials it gives. The source file of the configuration is not available. -/
structure TargetMatchRule where
  pattern : String
  credentials : Credentials
deriving DecidableEq, Repr

/-- Modelled from the spec: the type `Config` of the configuration, the ordered
sequence of its target match rules. -/
structure Config where
  rules : List TargetMatchRule
deriving DecidableEq, Repr

/-- Modelled from the spec: whether a rule is an explicit rule (its pattern is
not empty) whose pattern matches the target. `isMatch pattern target` is the
pattern test; the spec names exact hosts and globs and does not define it
further, so it is left open. -/
def TargetMatchRule.matchesTarget (isMatch : String → String → Bool) (target : String)
    (rule : TargetMatchRule) : Bool :=
  decide (rule.pattern ≠ "") && isMatch rule.pattern target

/-- Modelled from the spec: the method `CredentialsForTarget` of `SafeConfig`
(the operation `Resolve`), whose source file is not available. Of the explicit
rules that match the target, the first in declaration order wins; the default
rule (empty pattern) is used when no explicit rule matches; the error
`NoCredentials` is returned when no rule, the default included, applies. -/
def CredentialsForTarget (isMatch : String → String → Bool) (c : Config) (target : String) :
    Except String Credentials :=
  match c.rules.find? (TargetMatchRule.matchesTarget isMatch target) with
  | some rule => Except.ok rule.credentials
  | none =>
    match c.rules.find? (fun rule => decide (rule.pattern = "")) with
    | some rule => Except.ok rule.credentials
    | none => Except.error "NoCredentials"

/-! ## Specification-side definitions

These follow the words of the specification and are compared with the code
above. -/

/-- The collector after a sequence of earlier calls of `Collect`, each given by
its fetch result and its elapsed time. -/
def Collector.after {E : Type} (collector : String) (c : Collector E)
    (earlier : List (Except String (List (String × E)) × Float64)) : Collector E :=
  earlier.foldl (fun c call => (Collector.Collect collector c call.1 call.2).collector) c

/-- The observations a summary vector holds for a tuple of label values. -/
def SummaryVec.observations (s : SummaryVec) (lvs : List String) : List Float64 :=
  (s.children.lookup lvs).getD []

/-- The value a gauge vector holds for a tuple of label values. -/
def GaugeVec.value (g : GaugeVec) (lvs : List String) : Option Float64 :=
  g.children.lookup lvs

/-- Membership in the allow-list as `Collect` tests it: a `nil` list admits
every partition, any other list admits its members. -/
def admits (partitionsList : Option (List String)) (partition : String) : Bool :=
  match partitionsList with
  | none => true
  | some list => decide (partition ∈ list)

/-- The allow-list as the specification words it: a list that is absent or
empty admits every partition, a non-empty list admits its members. -/
def specAdmits (partitionsList : Option (List String)) (partition : String) : Bool :=
  match partitionsList with
  | none => true
  | some [] => true
  | some list => decide (partition ∈ list)

/-- The samples of one record: for every definition of the catalog one sample
with the definition's descriptor and kind, the value `extract(record)` and the
labels `[partition, objectName]`. -/
def recordSamples {E : Type} (metrics : List (String × CatalogMetric E)) (stats : E)
    (partition name : String) : List Metric :=
  metrics.map (fun km =>
    Metric.constMetric km.2.desc km.2.valueType (km.2.extract stats) [partition, name])

/-- The samples of one entry of the fetched map: the `recordSamples` of its
record under the labels its key yields when the allow-list admits the
partition, and nothing when the record is filtered out. -/
def entrySamples {E : Type} (metrics : List (String × CatalogMetric E))
    (partitionsList : Option (List String)) (entry : String × E) : List Metric :=
  match keyLabels entry.1 with
  | none => []
  | some (partition, name) =>
    if admits partitionsList partition then recordSamples metrics entry.2 partition name
    else []

/-- The catalog samples of a successful fetch as the specification describes
them: every record contributes its `entrySamples`, in the order of the
iteration. -/
def catalogSamples {E : Type} (metrics : List (String × CatalogMetric E))
    (partitionsList : Option (List String)) (allStats : List (String × E)) : List Metric :=
  allStats.flatMap (entrySamples metrics partitionsList)

/-- Whether the record under `key` passes the allow-list: its key yields a
partition and the list admits that partition. -/
def passes (partitionsList : Option (List String)) (key : String) : Bool :=
  match keyLabels key with
  | some (partition, _) => admits partitionsList partition
  | none => false

/-- The series names of the node catalog, in the order of the source. -/
def nodeSeriesNames : List String :=
  ["serverside_bytes_transmitted_total", "serverside_connections_concurrent_max",
    "serverside_connections", "serverside_packets_transmitted_total", "requests_total",
    "serverside_packets_received_total", "serverside_connections_total",
    "serverside_bytes_received_total", "sessions", "status_availability_state"]

/-- The series names of the virtual-server catalog, in the order of the
source. -/
def vsSeriesNames : List String :=
  ["syncookie_accepts", "ephemeral_bytes_transmitted_total",
    "clientside_bytes_transmitted_total", "five_min_avg_usage_ratio",
    "five_sec_avg_usage_ratio", "syncookie_syncookies", "ephemeral_slow_killed",
    "ephemeral_packets_transmitted_total", "syncookie_rejects",
    "syncookie_syncache_curr", "cs_min_conn_dur", "cs_mean_conn_dur",
    "syncookie_swsyncookie_instance", "syncookie_syncache_over",
    "syncookie_hw_accepts", "ephemeral_packets_received_total",
    "clientside_connections_total", "ephemeral_connections",
    "clientside_connections_evicted_total", "one_min_avg_usage_ratio",
    "ephemeral_connections_evicted_total", "clientside_slow_killed",
    "clientside_bytes_received_total", "ephemeral_connections_concurrent_max",
    "syncookie_hwsyncookie_instance", "clientside_packets_transmitted_total",
    "clientside_connections", "ephemeral_bytes_received_total",
    "clientside_packets_received_total", "requests_total", "cs_max_conn_dur",
    "syncookie_hw_syncookies", "clientside_connections_concurrent_max",
    "ephemeral_connections_total", "status_availability_state"]

/-- A namespace under which the library accepts every descriptor of the
catalogs: the empty namespace, or a namespace that is itself a valid metric
name (such as `bigip`, the one the scrape handler passes). -/
def validNamespace (ns : String) : Bool :=
  decide (ns = "") || IsValidMetricName ns

/-- Every descriptor of the catalog of a collector is one the library accepts
for a constant metric with the two label values `Collect` passes. -/
def Collector.descsAccepted {E : Type} (c : Collector E) : Prop :=
  ∀ km ∈ c.metrics, km.2.desc.err = false ∧ km.2.desc.variableLabels.length = 2

/-- A key from which `Collect` can derive a partition and an object name. -/
def derivable (key : String) : Bool :=
  (keyLabels key).isSome

/-- The descriptor of the series `collector_scrape_status`. -/
def scrapeStatusDesc (ns : String) : Desc :=
  NewDesc (BuildFQName ns "" "collector_scrape_status") "collector_scrape_status" ["collector"]

/-- The descriptor of the series `collector_scrape_duration`. -/
def scrapeDurationDesc (ns : String) : Desc :=
  NewDesc (BuildFQName ns "" "collector_scrape_duration") "collector_scrape_duration"
    ["collector"]

/-- A statistics record of a node with every counter at zero. -/
def nodeStatsZero : LBNodeStatsInnerEntries :=
  { Serverside_bitsOut := ⟨0⟩, Serverside_maxConns := ⟨0⟩, Serverside_curConns := ⟨0⟩,
    Serverside_pktsOut := ⟨0⟩, TotRequests := ⟨0⟩, Serverside_pktsIn := ⟨0⟩,
    Serverside_totConns := ⟨0⟩, Serverside_bitsIn := ⟨0⟩, CurSessions := ⟨0⟩,
    Status_availabilityState := ⟨""⟩ }

/-- The two vectors of a collector hold no child other than the one for the
collector's own label value. -/
def Collector.healthChildren {E : Type} (collector : String) (c : Collector E) : Prop :=
  (c.collectorScrapeStatus.children = []
      ∨ ∃ v, c.collectorScrapeStatus.children = [([collector], v)])
    ∧ (c.collectorScrapeDuration.children = []
      ∨ ∃ obs, c.collectorScrapeDuration.children = [([collector], obs)])

/-- A call of `NodeCollector.Collect` on a collector that `NewNodeCollector`
built and that has served the `earlier` calls. -/
def nodeRun (ns : String) (partitionsList : Option (List String))
    (earlier : List (Except String (List (String × LBNodeStatsInnerEntries)) × Float64))
    (fetch : Except String (List (String × LBNodeStatsInnerEntries)))
    (elapsed : Float64) : Collected LBNodeStatsInnerEntries :=
  NodeCollector.Collect (Collector.after "node" (NewNodeCollector ns partitionsList) earlier)
    fetch elapsed

/-- A call of `VSCollector.Collect` on a collector that `NewVSCollector` built
and that has served the `earlier` calls. -/
def vsRun (ns : String) (partitionsList : Option (List String))
    (earlier : List (Except String (List (String × LBVirtualStatsInnerEntries)) × Float64))
    (fetch : Except String (List (String × LBVirtualStatsInnerEntries)))
    (elapsed : Float64) : Collected LBVirtualStatsInnerEntries :=
  VSCollector.Collect (Collector.after "vs" (NewVSCollector ns partitionsList) earlier)
    fetch elapsed

/-- A statistics record of a virtual server with every counter at zero. -/
def vsStatsZero : LBVirtualStatsInnerEntries :=
  { Syncookie_accepts := ⟨0⟩, Ephemeral_bitsOut := ⟨0⟩, Clientside_bitsOut := ⟨0⟩,
    FiveMinAvgUsageRatio := ⟨0⟩, FiveSecAvgUsageRatio := ⟨0⟩, Syncookie_syncookies := ⟨0⟩,
    Ephemeral_slowKilled := ⟨0⟩, Ephemeral_pktsOut := ⟨0⟩, Syncookie_rejects := ⟨0⟩,
    Syncookie_syncacheCurr := ⟨0⟩, CsMinConnDur := ⟨0⟩, CsMeanConnDur := ⟨0⟩,
    Syncookie_swsyncookieInstance := ⟨0⟩, Syncookie_syncacheOver := ⟨0⟩,
    Syncookie_hwAccepts := ⟨0⟩, Ephemeral_pktsIn := ⟨0⟩, Clientside_totConns := ⟨0⟩,
    Ephemeral_curConns := ⟨0⟩, Clientside_evictedConns := ⟨0⟩, OneMinAvgUsageRatio := ⟨0⟩,
    Ephemeral_evictedConns := ⟨0⟩, Clientside_slowKilled := ⟨0⟩, Clientside_bitsIn := ⟨0⟩,
    Ephemeral_maxConns := ⟨0⟩, Syncookie_hwsyncookieInstance := ⟨0⟩, Clientside_pktsOut := ⟨0⟩,
    Clientside_curConns := ⟨0⟩, Ephemeral_bitsIn := ⟨0⟩, Clientside_pktsIn := ⟨0⟩,
    TotRequests := ⟨0⟩, CsMaxConnDur := ⟨0⟩, Syncookie_hwSyncookies := ⟨0⟩,
    Clientside_maxConns := ⟨0⟩, Ephemeral_totConns := ⟨0⟩, Status_availabilityState := ⟨""⟩ }

/-- A key of the form the device uses for a node, `.../~Common~node1/stats`. -/
def nodeKey : String :=
  "https://localhost/mgmt/tm/ltm/node/~Common~node1/stats"

/-- A key of the form the device uses for a virtual server. -/
def vsKey : String :=
  "https://localhost/mgmt/tm/ltm/virtual/~Common~vs1/stats"

/-- The segment after the first occurrence of `sep`: what stands between the
first `sep` and the next one (or the end). -/
def segmentAfterFirst (sep : Char) (cs : List Char) : List Char :=
  ((cs.dropWhile (fun c => decide (c ≠ sep))).tail).takeWhile (fun c => decide (c ≠ sep))

/-- The segment after the last occurrence of `sep` (the whole sequence when
`sep` does not occur): the last `sep`-delimited segment. -/
def segmentAfterLast (sep : Char) (cs : List Char) : List Char :=
  (cs.reverse.takeWhile (fun c => decide (c ≠ sep))).reverse

/-- What stands before the last occurrence of `sep`. -/
def beforeLast (sep : Char) (cs : List Char) : List Char :=
  ((cs.reverse.dropWhile (fun c => decide (c ≠ sep))).tail).reverse

/-- The second-to-last `sep`-delimited segment of a sequence in which `sep`
occurs: the last segment of what stands before the last `sep`. -/
def secondToLastSegment (sep : Char) (cs : List Char) : List Char :=
  segmentAfterLast sep (beforeLast sep cs)

/-- A pattern test for the examples: an exact host, or the glob `*` that
matches every target. -/
def exactOrStar (pattern target : String) : Bool :=
  pattern == target || pattern == "*"

/-- A configuration for the examples: the default rule declared first, then an
exact rule for `lb1`, the glob rule `*` and a second exact rule for `lb1`. -/
def exampleConfig : Config :=
  { rules := [
      { pattern := "", credentials := { User := "d", Password := "d", BasicAuth := false } },
      { pattern := "lb1", credentials := { User := "a", Password := "a", BasicAuth := false } },
      { pattern := "*", credentials := { User := "b", Password := "b", BasicAuth := true } },
      { pattern := "lb1", credentials := { User := "c", Password := "c", BasicAuth := false } }] }

/-! ## Lemmas on the library model -/

theorem GaugeVec.Set_desc (g : GaugeVec) (lvs : List String) (v : Float64) :
    (g.Set lvs v).desc = g.desc := by
  unfold GaugeVec.Set
  split <;> rfl

theorem SummaryVec.Observe_desc (s : SummaryVec) (lvs : List String) (v : Float64) :
    (s.Observe lvs v).desc = s.desc := by
  unfold SummaryVec.Observe
  split <;> rfl

theorem GaugeVec.Set_children_nil (g : GaugeVec) (lvs : List String) (v : Float64)
    (h : g.children = []) : (g.Set lvs v).children = [(lvs, v)] := by
  simp [GaugeVec.Set, h]

theorem GaugeVec.Set_children_single (g : GaugeVec) (lvs : List String) (v w : Float64)
    (h : g.children = [(lvs, w)]) : (g.Set lvs v).children = [(lvs, v)] := by
  simp [GaugeVec.Set, h]

theorem SummaryVec.Observe_children_nil (s : SummaryVec) (lvs : List String) (v : Float64)
    (h : s.children = []) : (s.Observe lvs v).children = [(lvs, [v])] := by
  simp [SummaryVec.Observe, h]

theorem SummaryVec.Observe_children_single (s : SummaryVec) (lvs : List String) (v : Float64)
    (obs : List Float64) (h : s.children = [(lvs, obs)]) :
    (s.Observe lvs v).children = [(lvs, obs ++ [v])] := by
  simp [SummaryVec.Observe, h]

/-! ## Lemmas on `Collect` -/

theorem MustNewConstMetric_eq_some (desc : Desc) (valueType : ValueType) (value : Float64)
    (labelValues : List String) (m : Metric)
    (h : MustNewConstMetric desc valueType value labelValues = some m) :
    m = Metric.constMetric desc valueType value labelValues := by
  unfold MustNewConstMetric at h
  split at h
  · exact absurd h (by simp)
  · split at h
    · exact absurd h (by simp)
    · exact (Option.some.inj h).symm

theorem MustNewConstMetric_accepted (desc : Desc) (valueType : ValueType) (value : Float64)
    (partition name : String) (he : desc.err = false) (hl : desc.variableLabels.length = 2) :
    MustNewConstMetric desc valueType value [partition, name]
      = some (Metric.constMetric desc valueType value [partition, name]) := by
  simp [MustNewConstMetric, he, hl]

theorem sendMetrics_eq {E : Type} (metrics : List (String × CatalogMetric E)) (stats : E)
    (partition name : String) (ch : List Metric)
    (hv : ∀ km ∈ metrics, km.2.desc.err = false ∧ km.2.desc.variableLabels.length = 2) :
    sendMetrics stats [partition, name] metrics ch
      = (ch ++ recordSamples metrics stats partition name, true) := by
  induction metrics generalizing ch with
  | nil => simp [sendMetrics, recordSamples]
  | cons km rest ih =>
    have hkm := hv km (List.mem_cons_self _ _)
    rw [sendMetrics, MustNewConstMetric_accepted _ _ _ _ _ hkm.1 hkm.2]
    simp only []
    rw [ih _ (fun km1 h1 => hv km1 (List.mem_cons_of_mem _ h1))]
    simp [recordSamples]

theorem sendMetrics_desc {E : Type} (metrics : List (String × CatalogMetric E)) (stats : E)
    (labels : List String) (ch : List Metric) (m : Metric)
    (hm : m ∈ (sendMetrics stats labels metrics ch).1) :
    m ∈ ch ∨ m.desc ∈ metrics.map (fun km => km.2.desc) := by
  induction metrics generalizing ch with
  | nil => exact Or.inl hm
  | cons km rest ih =>
    rw [sendMetrics] at hm
    cases hnew : MustNewConstMetric km.2.desc km.2.valueType (km.2.extract stats) labels with
    | none =>
      rw [hnew] at hm
      exact Or.inl hm
    | some metric =>
      rw [hnew] at hm
      rcases ih _ hm with h | h
      · rcases List.mem_append.mp h with h1 | h2
        · exact Or.inl h1
        · right
          have hmetric := MustNewConstMetric_eq_some _ _ _ _ _ hnew
          rw [List.mem_singleton.mp h2, hmetric]
          exact List.mem_map.mpr ⟨km, List.mem_cons_self _ _, rfl⟩
      · right
        rw [List.map_cons]
        exact List.mem_cons_of_mem _ h

theorem guard_iff (partitionsList : Option (List String)) (partition : String) :
    (partitionsList ≠ none ∧ ¬ stringInSlice partition (partitionsList.getD []) = true)
      ↔ admits partitionsList partition = false := by
  cases partitionsList with
  | none => simp [admits]
  | some list => simp [admits, stringInSlice]

theorem rangeEntries_cons_step {E : Type} (c : Collector E) (key : String) (stats : E)
    (rest : List (String × E)) (ch : List Metric) (partition name : String)
    (h : keyLabels key = some (partition, name)) :
    rangeEntries c ((key, stats) :: rest) ch
      = if admits c.partitionsList partition = true then
          (if (sendMetrics stats [partition, name] c.metrics ch).2 = true then
            rangeEntries c rest (sendMetrics stats [partition, name] c.metrics ch).1
          else ((sendMetrics stats [partition, name] c.metrics ch).1, false))
        else rangeEntries c rest ch := by
  rw [rangeEntries, h]
  simp only []
  by_cases hg : admits c.partitionsList partition = true
  · have hn : ¬ (c.partitionsList ≠ none
        ∧ ¬ stringInSlice partition (c.partitionsList.getD []) = true) := by
      rw [guard_iff]; simp [hg]
    rw [if_neg hn, if_pos hg]
    rcases hs : sendMetrics stats [partition, name] c.metrics ch with ⟨ch1, ok⟩
    cases ok <;> simp
  · have hp : c.partitionsList ≠ none
        ∧ ¬ stringInSlice partition (c.partitionsList.getD []) = true := by
      rw [guard_iff]; simpa using hg
    rw [if_pos hp, if_neg hg]

theorem rangeEntries_cons_some {E : Type} (c : Collector E) (key : String) (stats : E)
    (rest : List (String × E)) (ch : List Metric) (partition name : String)
    (hv : c.descsAccepted) (h : keyLabels key = some (partition, name)) :
    rangeEntries c ((key, stats) :: rest) ch
      = rangeEntries c rest
          (ch ++ (if admits c.partitionsList partition
            then recordSamples c.metrics stats partition name else [])) := by
  rw [rangeEntries_cons_step c key stats rest ch partition name h,
    sendMetrics_eq c.metrics stats partition name ch hv]
  by_cases hg : admits c.partitionsList partition = true
  · simp [hg]
  · simp [hg]

theorem rangeEntries_cons_none {E : Type} (c : Collector E) (key : String) (stats : E)
    (rest : List (String × E)) (ch : List Metric) (h : keyLabels key = none) :
    rangeEntries c ((key, stats) :: rest) ch = (ch, false) := by
  rw [rangeEntries, h]

theorem rangeEntries_derivable {E : Type} (c : Collector E) (allStats : List (String × E))
    (ch : List Metric) (hv : c.descsAccepted)
    (h : ∀ entry ∈ allStats, derivable entry.1 = true) :
    rangeEntries c allStats ch
      = (ch ++ catalogSamples c.metrics c.partitionsList allStats, true) := by
  induction allStats generalizing ch with
  | nil => simp [rangeEntries, catalogSamples]
  | cons entry rest ih =>
    obtain ⟨key, stats⟩ := entry
    have hk : derivable key = true := h (key, stats) (List.mem_cons_self _ _)
    obtain ⟨⟨partition, name⟩, hkl⟩ := Option.isSome_iff_exists.mp hk
    rw [rangeEntries_cons_some c key stats rest ch partition name hv hkl,
      ih _ (fun e he => h e (List.mem_cons_of_mem _ he))]
    simp [catalogSamples, entrySamples, hkl]

theorem Collect_error_ch {E : Type} (collector : String) (c : Collector E) (err : String)
    (elapsed : Float64) :
    (Collector.Collect collector c (Except.error err) elapsed).ch
      = (c.collectorScrapeStatus.Set [collector] (float64 0)).Collect
        ++ (c.collectorScrapeDuration.Observe [collector] elapsed).Collect := by
  simp [Collector.Collect]

theorem Collect_error_collector {E : Type} (collector : String) (c : Collector E) (err : String)
    (elapsed : Float64) :
    (Collector.Collect collector c (Except.error err) elapsed).collector
      = { c with
          collectorScrapeStatus := c.collectorScrapeStatus.Set [collector] (float64 0)
          collectorScrapeDuration := c.collectorScrapeDuration.Observe [collector] elapsed } := by
  simp [Collector.Collect]

theorem Collect_error_panicked {E : Type} (collector : String) (c : Collector E) (err : String)
    (elapsed : Float64) :
    (Collector.Collect collector c (Except.error err) elapsed).panicked = false := by
  simp [Collector.Collect]

theorem Collect_ok_done {E : Type} (collector : String) (c : Collector E)
    (allStats : List (String × E)) (elapsed : Float64) (ch : List Metric)
    (h : rangeEntries c allStats [] = (ch, true)) :
    Collector.Collect collector c (Except.ok allStats) elapsed
      = { collector := { c with
            collectorScrapeStatus := c.collectorScrapeStatus.Set [collector] (float64 1)
            collectorScrapeDuration := c.collectorScrapeDuration.Observe [collector] elapsed }
          ch := ch ++ (c.collectorScrapeStatus.Set [collector] (float64 1)).Collect
            ++ (c.collectorScrapeDuration.Observe [collector] elapsed).Collect
          panicked := false } := by
  simp [Collector.Collect, h]

theorem Collect_ok_panic {E : Type} (collector : String) (c : Collector E)
    (allStats : List (String × E)) (elapsed : Float64) (ch : List Metric)
    (h : rangeEntries c allStats [] = (ch, false)) :
    Collector.Collect collector c (Except.ok allStats) elapsed
      = { collector := c, ch := ch, panicked := true } := by
  simp [Collector.Collect, h]

theorem status_Collect_of_health {E : Type} (collector : String) (c : Collector E)
    (h : c.healthChildren collector) (v : Float64) :
    (c.collectorScrapeStatus.Set [collector] v).Collect
      = [Metric.gauge c.collectorScrapeStatus.desc [collector] v]
      ∧ (c.collectorScrapeStatus.Set [collector] v).children = [([collector], v)] := by
  rcases h.1 with h0 | ⟨w, h1⟩
  · have hc := GaugeVec.Set_children_nil c.collectorScrapeStatus [collector] v h0
    simp [GaugeVec.Collect, hc, GaugeVec.Set_desc]
  · have hc := GaugeVec.Set_children_single c.collectorScrapeStatus [collector] v w h1
    simp [GaugeVec.Collect, hc, GaugeVec.Set_desc]

theorem duration_Collect_of_health {E : Type} (collector : String) (c : Collector E)
    (h : c.healthChildren collector) (v : Float64) :
    (c.collectorScrapeDuration.Observe [collector] v).Collect
      = [Metric.summary c.collectorScrapeDuration.desc [collector]
          (c.collectorScrapeDuration.observations [collector] ++ [v])]
      ∧ ∃ obs, (c.collectorScrapeDuration.Observe [collector] v).children
          = [([collector], obs)] := by
  rcases h.2 with h0 | ⟨obs, h1⟩
  · have hc := SummaryVec.Observe_children_nil c.collectorScrapeDuration [collector] v h0
    simp [SummaryVec.Collect, hc, SummaryVec.Observe_desc, SummaryVec.observations, h0]
  · have hc := SummaryVec.Observe_children_single c.collectorScrapeDuration [collector] v obs h1
    simp [SummaryVec.Collect, hc, SummaryVec.Observe_desc, SummaryVec.observations, h1]

/-- What one call of `Collect` leaves unchanged, and that it keeps the health
vectors to the collector's own child. -/
theorem Collect_collector {E : Type} (collector : String) (c : Collector E)
    (fetch : Except String (List (String × E))) (elapsed : Float64)
    (h : c.healthChildren collector) :
    (Collector.Collect collector c fetch elapsed).collector.metrics = c.metrics
      ∧ (Collector.Collect collector c fetch elapsed).collector.partitionsList
          = c.partitionsList
      ∧ (Collector.Collect collector c fetch elapsed).collector.collectorScrapeStatus.desc
          = c.collectorScrapeStatus.desc
      ∧ (Collector.Collect collector c fetch elapsed).collector.collectorScrapeDuration.desc
          = c.collectorScrapeDuration.desc
      ∧ (Collector.Collect collector c fetch elapsed).collector.healthChildren collector := by
  have done : ∀ v : Float64,
      Collector.healthChildren collector
        ({ c with
            collectorScrapeStatus := c.collectorScrapeStatus.Set [collector] v
            collectorScrapeDuration := c.collectorScrapeDuration.Observe [collector] elapsed }
          : Collector E) := by
    intro v
    exact ⟨Or.inr ⟨v, (status_Collect_of_health collector c h v).2⟩,
      Or.inr (duration_Collect_of_health collector c h elapsed).2⟩
  cases fetch with
  | error err =>
    rw [Collect_error_collector]
    exact ⟨rfl, rfl, GaugeVec.Set_desc _ _ _, SummaryVec.Observe_desc _ _ _, done _⟩
  | ok allStats =>
    rcases hr : rangeEntries c allStats [] with ⟨ch, ok⟩
    cases ok with
    | true =>
      rw [Collect_ok_done collector c allStats elapsed ch hr]
      exact ⟨rfl, rfl, GaugeVec.Set_desc _ _ _, SummaryVec.Observe_desc _ _ _, done _⟩
    | false =>
      rw [Collect_ok_panic collector c allStats elapsed ch hr]
      exact ⟨rfl, rfl, rfl, rfl, h⟩

theorem after_collector {E : Type} (collector : String) (c : Collector E)
    (earlier : List (Except String (List (String × E)) × Float64))
    (h : c.healthChildren collector) :
    (c.after collector earlier).metrics = c.metrics
      ∧ (c.after collector earlier).partitionsList = c.partitionsList
      ∧ (c.after collector earlier).collectorScrapeStatus.desc = c.collectorScrapeStatus.desc
      ∧ (c.after collector earlier).collectorScrapeDuration.desc
          = c.collectorScrapeDuration.desc
      ∧ (c.after collector earlier).healthChildren collector := by
  induction earlier generalizing c with
  | nil => exact ⟨rfl, rfl, rfl, rfl, h⟩
  | cons call rest ih =>
    have hstep := Collect_collector collector c call.1 call.2 h
    have hrest := ih (Collector.Collect collector c call.1 call.2).collector hstep.2.2.2.2
    have hunf : c.after collector (call :: rest)
        = (Collector.Collect collector c call.1 call.2).collector.after collector rest := rfl
    rw [hunf]
    exact ⟨hrest.1.trans hstep.1, hrest.2.1.trans hstep.2.1, hrest.2.2.1.trans hstep.2.2.1,
      hrest.2.2.2.1.trans hstep.2.2.2.1, hrest.2.2.2.2⟩

theorem NewNodeCollector_health (ns : String) (partitionsList : Option (List String)) :
    (NewNodeCollector ns partitionsList).healthChildren "node" :=
  ⟨Or.inl rfl, Or.inl rfl⟩

theorem NewVSCollector_health (ns : String) (partitionsList : Option (List String)) :
    (NewVSCollector ns partitionsList).healthChildren "vs" :=
  ⟨Or.inl rfl, Or.inl rfl⟩

/-! ## One call of `Collect` on a collector with its own health children -/

theorem Collect_error_run {E : Type} (collector : String) (c : Collector E) (err : String)
    (elapsed : Float64) (h : c.healthChildren collector) :
    (Collector.Collect collector c (Except.error err) elapsed).ch
        = [Metric.gauge c.collectorScrapeStatus.desc [collector] (float64 0),
            Metric.summary c.collectorScrapeDuration.desc [collector]
              (c.collectorScrapeDuration.observations [collector] ++ [elapsed])]
      ∧ (Collector.Collect collector c (Except.error err)
            elapsed).collector.collectorScrapeStatus.value [collector] = some (float64 0) := by
  rw [Collect_error_ch, Collect_error_collector,
    (status_Collect_of_health collector c h (float64 0)).1,
    (duration_Collect_of_health collector c h elapsed).1]
  refine ⟨rfl, ?_⟩
  simp [GaugeVec.value, (status_Collect_of_health collector c h (float64 0)).2]

theorem Collect_ok_run {E : Type} (collector : String) (c : Collector E)
    (allStats : List (String × E)) (elapsed : Float64) (h : c.healthChildren collector)
    (hv : c.descsAccepted) (hk : ∀ entry ∈ allStats, derivable entry.1 = true) :
    (Collector.Collect collector c (Except.ok allStats) elapsed).ch
        = catalogSamples c.metrics c.partitionsList allStats
          ++ [Metric.gauge c.collectorScrapeStatus.desc [collector] (float64 1),
            Metric.summary c.collectorScrapeDuration.desc [collector]
              (c.collectorScrapeDuration.observations [collector] ++ [elapsed])]
      ∧ (Collector.Collect collector c (Except.ok allStats)
            elapsed).collector.collectorScrapeStatus.value [collector] = some (float64 1)
      ∧ (Collector.Collect collector c (Except.ok allStats) elapsed).panicked = false := by
  have hr := rangeEntries_derivable c allStats [] hv hk
  rw [List.nil_append] at hr
  rw [Collect_ok_done collector c allStats elapsed _ hr,
    (status_Collect_of_health collector c h (float64 1)).1,
    (duration_Collect_of_health collector c h elapsed).1]
  refine ⟨by simp, ?_, rfl⟩
  simp [GaugeVec.value, (status_Collect_of_health collector c h (float64 1)).2]

/-! ## The catalog samples of the specification -/

theorem recordSamples_isConst {E : Type} (metrics : List (String × CatalogMetric E)) (stats : E)
    (partition name : String) :
    (recordSamples metrics stats partition name).filter Metric.isConst
      = recordSamples metrics stats partition name := by
  rw [List.filter_eq_self]
  intro m hm
  obtain ⟨km, _, rfl⟩ := List.mem_map.mp hm
  rfl

theorem catalogSamples_cons {E : Type} (metrics : List (String × CatalogMetric E))
    (partitionsList : Option (List String)) (entry : String × E) (rest : List (String × E)) :
    catalogSamples metrics partitionsList (entry :: rest)
      = entrySamples metrics partitionsList entry
        ++ catalogSamples metrics partitionsList rest := by
  unfold catalogSamples
  rw [List.flatMap_cons]

theorem catalogSamples_isConst {E : Type} (metrics : List (String × CatalogMetric E))
    (partitionsList : Option (List String)) (allStats : List (String × E)) :
    (catalogSamples metrics partitionsList allStats).filter Metric.isConst
      = catalogSamples metrics partitionsList allStats := by
  induction allStats with
  | nil => simp [catalogSamples]
  | cons entry rest ih =>
    rw [catalogSamples_cons, List.filter_append, ih]
    congr 1
    unfold entrySamples
    cases hkl : keyLabels entry.1 with
    | none => rfl
    | some pn =>
      obtain ⟨partition, name⟩ := pn
      by_cases ha : admits partitionsList partition = true
      · simp only [ha, if_true]; exact recordSamples_isConst _ _ _ _
      · simp [ha]

theorem catalogSamples_length {E : Type} (metrics : List (String × CatalogMetric E))
    (partitionsList : Option (List String)) (allStats : List (String × E)) :
    (catalogSamples metrics partitionsList allStats).length
      = (allStats.filter (fun entry => passes partitionsList entry.1)).length
          * metrics.length := by
  induction allStats with
  | nil => simp [catalogSamples]
  | cons entry rest ih =>
    rw [catalogSamples_cons, List.length_append, ih]
    unfold entrySamples
    cases hkl : keyLabels entry.1 with
    | none => simp [List.filter_cons, passes, hkl]
    | some pn =>
      obtain ⟨partition, name⟩ := pn
      by_cases ha : admits partitionsList partition = true
      · simp [List.filter_cons, passes, hkl, ha, recordSamples, Nat.add_mul, Nat.add_comm]
      · simp [List.filter_cons, passes, hkl, ha]

theorem mem_catalogSamples {E : Type} (metrics : List (String × CatalogMetric E))
    (partitionsList : Option (List String)) (allStats : List (String × E)) (m : Metric) :
    m ∈ catalogSamples metrics partitionsList allStats
      ↔ ∃ entry ∈ allStats, ∃ partition name, keyLabels entry.1 = some (partition, name)
          ∧ admits partitionsList partition = true
          ∧ m ∈ recordSamples metrics entry.2 partition name := by
  unfold catalogSamples
  rw [List.mem_flatMap]
  constructor
  · rintro ⟨entry, he, hm⟩
    refine ⟨entry, he, ?_⟩
    unfold entrySamples at hm
    cases hkl : keyLabels entry.1 with
    | none => simp [hkl] at hm
    | some pn =>
      obtain ⟨partition, name⟩ := pn
      by_cases ha : admits partitionsList partition = true
      · simp only [hkl, ha, if_true] at hm
        exact ⟨partition, name, rfl, ha, hm⟩
      · simp [hkl, ha] at hm
  · rintro ⟨entry, he, partition, name, hkl, ha, hm⟩
    refine ⟨entry, he, ?_⟩
    unfold entrySamples
    simp only [hkl, ha, if_true]
    exact hm

theorem length_nodeMetrics (ns : String) : (nodeMetrics ns).length = 10 := rfl

theorem length_vsMetrics (ns : String) : (vsMetrics ns).length = 35 := rfl

/-! ## Descriptors the library accepts -/

theorem allNameChars_append (a b : List Char) (ha : a.all isNameChar = true)
    (hb : b.all isNameChar = true) : (a ++ b).all isNameChar = true := by
  rw [List.all_append, ha, hb]
  rfl

theorem IsValidMetricName_append (a b : String) (ha : IsValidMetricName a = true)
    (hb : b.data.all isNameChar = true) : IsValidMetricName (a ++ b) = true := by
  unfold IsValidMetricName at ha ⊢
  rw [String.data_append]
  cases hd : a.data with
  | nil => rw [hd] at ha; exact absurd ha (by simp)
  | cons c cs =>
    rw [hd] at ha
    simp only [Bool.and_eq_true] at ha
    simp only [List.cons_append, Bool.and_eq_true]
    exact ⟨ha.1, allNameChars_append cs b.data ha.2 hb⟩

theorem IsValidMetricName_BuildFQName (ns subsystem name : String)
    (hns : validNamespace ns = true) (hs : IsValidMetricName subsystem = true)
    (hn : name ≠ "") (hname : name.data.all isNameChar = true) :
    IsValidMetricName (BuildFQName ns subsystem name) = true := by
  have hsub : subsystem ≠ "" := by
    intro e
    rw [e] at hs
    exact absurd hs (by decide)
  have hsubchars : subsystem.data.all isNameChar = true := by
    unfold IsValidMetricName at hs
    cases hd : subsystem.data with
    | nil => rfl
    | cons c cs =>
      rw [hd] at hs
      simp only [Bool.and_eq_true] at hs
      simp only [List.all_cons, Bool.and_eq_true]
      exact ⟨by simp [isNameChar, hs.1], hs.2⟩
  have hu : ("_" : String).data.all isNameChar = true := by decide
  unfold BuildFQName
  rw [if_neg hn]
  by_cases he : ns = ""
  · have h1 : ¬ (ns ≠ "" ∧ subsystem ≠ "") := fun hc => hc.1 he
    have h2 : ¬ ns ≠ "" := fun hc => hc he
    rw [if_neg h1, if_neg h2, if_pos hsub]
    exact IsValidMetricName_append _ _ (IsValidMetricName_append _ _ hs hu) hname
  · have hvalid : IsValidMetricName ns = true := by
      unfold validNamespace at hns
      simpa [he] using hns
    rw [if_pos ⟨he, hsub⟩]
    exact IsValidMetricName_append _ _
      (IsValidMetricName_append _ _
        (IsValidMetricName_append _ _ (IsValidMetricName_append _ _ hvalid hu) hsubchars) hu)
      hname

theorem NewDesc_accepted (ns subsystem name help : String) (labelNames : List String)
    (hns : validNamespace ns = true) (hs : IsValidMetricName subsystem = true)
    (hn : name ≠ "") (hname : name.data.all isNameChar = true)
    (hl : labelNames.all checkLabelName = true) (hd : labelNames.Nodup) :
    (NewDesc (BuildFQName ns subsystem name) help labelNames).err = false := by
  unfold NewDesc
  simp [IsValidMetricName_BuildFQName ns subsystem name hns hs hn hname, hl, hd]

theorem seriesNames_ok :
    (∀ name ∈ nodeSeriesNames, name ≠ "" ∧ name.data.all isNameChar = true)
      ∧ (∀ name ∈ vsSeriesNames, name ≠ "" ∧ name.data.all isNameChar = true) := by
  decide

theorem nodeMetrics_accepted (ns : String) (hns : validNamespace ns = true) :
    ∀ km ∈ nodeMetrics ns, km.2.desc.err = false ∧ km.2.desc.variableLabels.length = 2 := by
  have hdescs : (nodeMetrics ns).map (fun km => km.2.desc)
      = nodeSeriesNames.map
          (fun name => NewDesc (BuildFQName ns "node" name) name ["partition", "node"]) :=
    rfl
  intro km hkm
  have hmem : km.2.desc ∈ (nodeMetrics ns).map (fun km => km.2.desc) :=
    List.mem_map.mpr ⟨km, hkm, rfl⟩
  rw [hdescs] at hmem
  obtain ⟨name, hname, hdesc⟩ := List.mem_map.mp hmem
  rw [← hdesc]
  have hok := seriesNames_ok.1 name hname
  exact ⟨NewDesc_accepted ns "node" name name _ hns (by decide) hok.1 hok.2 (by decide)
    (by decide), rfl⟩

theorem vsMetrics_accepted (ns : String) (hns : validNamespace ns = true) :
    ∀ km ∈ vsMetrics ns, km.2.desc.err = false ∧ km.2.desc.variableLabels.length = 2 := by
  have hdescs : (vsMetrics ns).map (fun km => km.2.desc)
      = vsSeriesNames.map
          (fun name => NewDesc (BuildFQName ns "vs" name) name ["partition", "vs"]) :=
    rfl
  intro km hkm
  have hmem : km.2.desc ∈ (vsMetrics ns).map (fun km => km.2.desc) :=
    List.mem_map.mpr ⟨km, hkm, rfl⟩
  rw [hdescs] at hmem
  obtain ⟨name, hname, hdesc⟩ := List.mem_map.mp hmem
  rw [← hdesc]
  have hok := seriesNames_ok.2 name hname
  exact ⟨NewDesc_accepted ns "vs" name name _ hns (by decide) hok.1 hok.2 (by decide)
    (by decide), rfl⟩

theorem after_NewNodeCollector (ns : String) (partitionsList : Option (List String))
    (earlier : List (Except String (List (String × LBNodeStatsInnerEntries)) × Float64)) :
    ((NewNodeCollector ns partitionsList).after "node" earlier).metrics = nodeMetrics ns
      ∧ ((NewNodeCollector ns partitionsList).after "node" earlier).partitionsList
          = partitionsList
      ∧ ((NewNodeCollector ns partitionsList).after "node" earlier).collectorScrapeStatus.desc
          = scrapeStatusDesc ns
      ∧ ((NewNodeCollector ns partitionsList).after "node" earlier).collectorScrapeDuration.desc
          = scrapeDurationDesc ns
      ∧ ((NewNodeCollector ns partitionsList).after "node" earlier).healthChildren "node" :=
  after_collector "node" (NewNodeCollector ns partitionsList) earlier
    (NewNodeCollector_health ns partitionsList)

theorem after_NewVSCollector (ns : String) (partitionsList : Option (List String))
    (earlier : List (Except String (List (String × LBVirtualStatsInnerEntries)) × Float64)) :
    ((NewVSCollector ns partitionsList).after "vs" earlier).metrics = vsMetrics ns
      ∧ ((NewVSCollector ns partitionsList).after "vs" earlier).partitionsList
          = partitionsList
      ∧ ((NewVSCollector ns partitionsList).after "vs" earlier).collectorScrapeStatus.desc
          = scrapeStatusDesc ns
      ∧ ((NewVSCollector ns partitionsList).after "vs" earlier).collectorScrapeDuration.desc
          = scrapeDurationDesc ns
      ∧ ((NewVSCollector ns partitionsList).after "vs" earlier).healthChildren "vs" :=
  after_collector "vs" (NewVSCollector ns partitionsList) earlier
    (NewVSCollector_health ns partitionsList)

/-! ## Fetch failure -/

/-- C1. When the device fetch returns an error, `NodeCollector.Collect` and
`VSCollector.Collect` send exactly two metrics, the gauge
`collector_scrape_status` with value 0 under the collector's label (`"node"`,
`"vs"`) and the summary `collector_scrape_duration` with the elapsed time
added; no catalog sample is sent, the gauge of the collector holds 0, and the
call does not panic. This holds for a collector fresh from its constructor and
after any number of earlier calls. -/
theorem Collect_fetch_error_emits_health_only (ns : String)
    (partitionsList : Option (List String))
    (nodeEarlier : List (Except String (List (String × LBNodeStatsInnerEntries)) × Float64))
    (vsEarlier : List (Except String (List (String × LBVirtualStatsInnerEntries)) × Float64))
    (err : String) (elapsed : Float64) :
    ((nodeRun ns partitionsList nodeEarlier (Except.error err) elapsed).ch
          = [Metric.gauge (scrapeStatusDesc ns) ["node"] (float64 0),
              Metric.summary (scrapeDurationDesc ns) ["node"]
                (((NewNodeCollector ns partitionsList).after "node"
                    nodeEarlier).collectorScrapeDuration.observations ["node"] ++ [elapsed])]
        ∧ (nodeRun ns partitionsList nodeEarlier (Except.error err) elapsed).ch.filter
            Metric.isConst = []
        ∧ (nodeRun ns partitionsList nodeEarlier (Except.error err)
            elapsed).collector.collectorScrapeStatus.value ["node"] = some (float64 0)
        ∧ (nodeRun ns partitionsList nodeEarlier (Except.error err) elapsed).panicked = false)
      ∧ ((vsRun ns partitionsList vsEarlier (Except.error err) elapsed).ch
          = [Metric.gauge (scrapeStatusDesc ns) ["vs"] (float64 0),
              Metric.summary (scrapeDurationDesc ns) ["vs"]
                (((NewVSCollector ns partitionsList).after "vs"
                    vsEarlier).collectorScrapeDuration.observations ["vs"] ++ [elapsed])]
        ∧ (vsRun ns partitionsList vsEarlier (Except.error err) elapsed).ch.filter
            Metric.isConst = []
        ∧ (vsRun ns partitionsList vsEarlier (Except.error err)
            elapsed).collector.collectorScrapeStatus.value ["vs"] = some (float64 0)
        ∧ (vsRun ns partitionsList vsEarlier (Except.error err) elapsed).panicked = false) := by
  obtain ⟨_, _, hns, hnd, hnh⟩ := after_NewNodeCollector ns partitionsList nodeEarlier
  obtain ⟨_, _, hvs, hvd, hvh⟩ := after_NewVSCollector ns partitionsList vsEarlier
  have hn := Collect_error_run "node" _ err elapsed hnh
  have hv := Collect_error_run "vs" _ err elapsed hvh
  rw [hns, hnd] at hn
  rw [hvs, hvd] at hv
  unfold nodeRun vsRun NodeCollector.Collect VSCollector.Collect
  refine ⟨⟨hn.1, ?_, hn.2, Collect_error_panicked _ _ _ _⟩,
    ⟨hv.1, ?_, hv.2, Collect_error_panicked _ _ _ _⟩⟩
  · rw [hn.1]; rfl
  · rw [hv.1]; rfl

/-! ## Successful fetch -/

theorem catalogSamples_all_const {E : Type} (metrics : List (String × CatalogMetric E))
    (partitionsList : Option (List String)) (allStats : List (String × E)) (m : Metric)
    (hm : m ∈ catalogSamples metrics partitionsList allStats) : m.isConst = true := by
  rw [← catalogSamples_isConst] at hm
  exact (List.mem_filter.mp hm).2

theorem Collect_ok_split {E : Type} (collector : String) (c : Collector E)
    (allStats : List (String × E)) (elapsed : Float64) (h : c.healthChildren collector)
    (hv : c.descsAccepted) (hk : ∀ entry ∈ allStats, derivable entry.1 = true) :
    (Collector.Collect collector c (Except.ok allStats) elapsed).ch.filter Metric.isConst
        = catalogSamples c.metrics c.partitionsList allStats
      ∧ (Collector.Collect collector c (Except.ok allStats) elapsed).ch.filter
          (fun m => !m.isConst)
        = [Metric.gauge c.collectorScrapeStatus.desc [collector] (float64 1),
            Metric.summary c.collectorScrapeDuration.desc [collector]
              (c.collectorScrapeDuration.observations [collector] ++ [elapsed])] := by
  rw [(Collect_ok_run collector c allStats elapsed h hv hk).1, List.filter_append,
    List.filter_append, catalogSamples_isConst]
  constructor
  · simp [Metric.isConst]
  · have hnone : (catalogSamples c.metrics c.partitionsList allStats).filter
        (fun m => !m.isConst) = [] := by
      rw [List.filter_eq_nil_iff]
      intro m hm
      simp [catalogSamples_all_const _ _ _ m hm]
    rw [hnone]
    simp [Metric.isConst]

theorem admits_iff (partitionsList : Option (List String)) (partition : String) :
    admits partitionsList partition = true
      ↔ (partitionsList = none ∨ ∃ list, partitionsList = some list ∧ partition ∈ list) := by
  cases partitionsList with
  | none => simp [admits]
  | some list => simp [admits]

theorem labelValues_of_mem_recordSamples {E : Type} (metrics : List (String × CatalogMetric E))
    (stats : E) (partition name : String) (m : Metric)
    (hm : m ∈ recordSamples metrics stats partition name) :
    m.labelValues = [partition, name] := by
  obtain ⟨km, _, rfl⟩ := List.mem_map.mp hm
  rfl

theorem Collect_ok_yields_iff {E : Type} (collector : String) (c : Collector E)
    (allStats : List (String × E)) (elapsed : Float64) (h : c.healthChildren collector)
    (hv : c.descsAccepted) (hk : ∀ entry ∈ allStats, derivable entry.1 = true)
    (hm : c.metrics ≠ [])
    (entry : String × E) (he : entry ∈ allStats) (partition name : String)
    (hkl : keyLabels entry.1 = some (partition, name)) :
    (∃ m ∈ (Collector.Collect collector c (Except.ok allStats) elapsed).ch,
        m.isConst = true ∧ m.labelValues = [partition, name])
      ↔ (c.partitionsList = none
          ∨ ∃ list, c.partitionsList = some list ∧ partition ∈ list) := by
  rw [← admits_iff]
  have hsplit := (Collect_ok_split collector c allStats elapsed h hv hk).1
  constructor
  · rintro ⟨m, hmem, hconst, hlv⟩
    have hcat : m ∈ catalogSamples c.metrics c.partitionsList allStats := by
      rw [← hsplit]; exact List.mem_filter.mpr ⟨hmem, hconst⟩
    obtain ⟨entry', _, partition', name', _, hadm, hrec⟩ :=
      (mem_catalogSamples _ _ _ m).mp hcat
    have hlv' := labelValues_of_mem_recordSamples _ _ _ _ m hrec
    rw [hlv] at hlv'
    have hp : partition = partition' := by
      have := List.cons.inj hlv'
      exact this.1
    rw [hp]; exact hadm
  · intro hadm
    obtain ⟨km, rest, hkm⟩ := List.exists_cons_of_ne_nil hm
    have hrec : Metric.constMetric km.2.desc km.2.valueType (km.2.extract entry.2)
        [partition, name] ∈ recordSamples c.metrics entry.2 partition name := by
      unfold recordSamples
      rw [hkm]
      exact List.mem_cons_self _ _
    have hcat := (mem_catalogSamples c.metrics c.partitionsList allStats _).mpr
      ⟨entry, he, partition, name, hkl, hadm, hrec⟩
    rw [← hsplit] at hcat
    exact ⟨_, (List.mem_filter.mp hcat).1, rfl, rfl⟩

/-! ## Descriptors -/

theorem rangeEntries_desc {E : Type} (c : Collector E) (allStats : List (String × E))
    (ch : List Metric) (m : Metric) (hm : m ∈ (rangeEntries c allStats ch).1) :
    m ∈ ch ∨ m.desc ∈ c.metrics.map (fun km => km.2.desc) := by
  induction allStats generalizing ch with
  | nil => exact Or.inl hm
  | cons entry rest ih =>
    obtain ⟨key, stats⟩ := entry
    cases hkl : keyLabels key with
    | none =>
      rw [rangeEntries_cons_none c key stats rest ch hkl] at hm
      exact Or.inl hm
    | some pn =>
      obtain ⟨partition, name⟩ := pn
      rw [rangeEntries_cons_step c key stats rest ch partition name hkl] at hm
      by_cases ha : admits c.partitionsList partition = true
      · rw [if_pos ha] at hm
        by_cases hs : (sendMetrics stats [partition, name] c.metrics ch).2 = true
        · rw [if_pos hs] at hm
          rcases ih _ hm with h | h
          · exact sendMetrics_desc c.metrics stats [partition, name] ch m h
          · exact Or.inr h
        · rw [if_neg hs] at hm
          exact sendMetrics_desc c.metrics stats [partition, name] ch m hm
      · rw [if_neg ha] at hm
        exact ih _ hm

theorem mem_GaugeVec_Collect (g : GaugeVec) (m : Metric) (hm : m ∈ g.Collect) :
    m.desc = g.desc := by
  obtain ⟨p, _, rfl⟩ := List.mem_map.mp hm
  rfl

theorem mem_SummaryVec_Collect (s : SummaryVec) (m : Metric) (hm : m ∈ s.Collect) :
    m.desc = s.desc := by
  obtain ⟨p, _, rfl⟩ := List.mem_map.mp hm
  rfl

theorem Collect_desc_mem_Describe {E : Type} (collector : String) (c : Collector E)
    (fetch : Except String (List (String × E))) (elapsed : Float64) (m : Metric)
    (hm : m ∈ (Collector.Collect collector c fetch elapsed).ch) : m.desc ∈ c.Describe := by
  have hstatus : ∀ v, ∀ m ∈ (c.collectorScrapeStatus.Set [collector] v).Collect,
      m.desc ∈ c.Describe := by
    intro v m hm
    rw [mem_GaugeVec_Collect _ m hm, GaugeVec.Set_desc]
    simp [Collector.Describe, GaugeVec.Describe]
  have hduration : ∀ m ∈ (c.collectorScrapeDuration.Observe [collector] elapsed).Collect,
      m.desc ∈ c.Describe := by
    intro m hm
    rw [mem_SummaryVec_Collect _ m hm, SummaryVec.Observe_desc]
    simp [Collector.Describe, SummaryVec.Describe]
  have hloop : ∀ allStats, ∀ m ∈ (rangeEntries c allStats []).1, m.desc ∈ c.Describe := by
    intro allStats m hm
    rcases rangeEntries_desc c allStats [] m hm with h | h
    · exact absurd h (List.not_mem_nil _)
    · unfold Collector.Describe
      exact List.mem_append_left _ (List.mem_append_left _ h)
  cases fetch with
  | error err =>
    rw [Collect_error_ch] at hm
    rcases List.mem_append.mp hm with h | h
    · exact hstatus _ m h
    · exact hduration m h
  | ok allStats =>
    rcases hr : rangeEntries c allStats [] with ⟨ch, ok⟩
    have hch : ∀ m ∈ ch, m.desc ∈ c.Describe := by
      intro m hm
      apply hloop allStats
      rw [hr]; exact hm
    cases ok with
    | true =>
      rw [Collect_ok_done collector c allStats elapsed ch hr] at hm
      rcases List.mem_append.mp hm with h | h
      · rcases List.mem_append.mp h with h1 | h2
        · exact hch m h1
        · exact hstatus _ m h2
      · exact hduration m h
    | false =>
      rw [Collect_ok_panic collector c allStats elapsed ch hr] at hm
      exact hch m hm

theorem nodeRun_ok (ns : String) (partitionsList : Option (List String))
    (earlier : List (Except String (List (String × LBNodeStatsInnerEntries)) × Float64))
    (allStats : List (String × LBNodeStatsInnerEntries)) (elapsed : Float64)
    (hns : validNamespace ns = true) (hk : ∀ entry ∈ allStats, derivable entry.1 = true) :
    (nodeRun ns partitionsList earlier (Except.ok allStats) elapsed).ch.filter Metric.isConst
        = catalogSamples (nodeMetrics ns) partitionsList allStats
      ∧ (nodeRun ns partitionsList earlier (Except.ok allStats) elapsed).ch.filter
          (fun m => !m.isConst)
        = [Metric.gauge (scrapeStatusDesc ns) ["node"] (float64 1),
            Metric.summary (scrapeDurationDesc ns) ["node"]
              (((NewNodeCollector ns partitionsList).after "node"
                  earlier).collectorScrapeDuration.observations ["node"] ++ [elapsed])]
      ∧ (nodeRun ns partitionsList earlier (Except.ok allStats)
          elapsed).collector.collectorScrapeStatus.value ["node"] = some (float64 1)
      ∧ (nodeRun ns partitionsList earlier (Except.ok allStats) elapsed).panicked = false := by
  obtain ⟨hm, hp, hs, hd, hh⟩ := after_NewNodeCollector ns partitionsList earlier
  have hv : ((NewNodeCollector ns partitionsList).after "node" earlier).descsAccepted := by
    unfold Collector.descsAccepted
    rw [hm]
    exact nodeMetrics_accepted ns hns
  have hsplit := Collect_ok_split "node" _ allStats elapsed hh hv hk
  have hrun := Collect_ok_run "node" _ allStats elapsed hh hv hk
  rw [hm, hp] at hsplit
  rw [hs, hd] at hsplit
  exact ⟨hsplit.1, hsplit.2, hrun.2.1, hrun.2.2⟩

theorem vsRun_ok (ns : String) (partitionsList : Option (List String))
    (earlier : List (Except String (List (String × LBVirtualStatsInnerEntries)) × Float64))
    (allStats : List (String × LBVirtualStatsInnerEntries)) (elapsed : Float64)
    (hns : validNamespace ns = true) (hk : ∀ entry ∈ allStats, derivable entry.1 = true) :
    (vsRun ns partitionsList earlier (Except.ok allStats) elapsed).ch.filter Metric.isConst
        = catalogSamples (vsMetrics ns) partitionsList allStats
      ∧ (vsRun ns partitionsList earlier (Except.ok allStats) elapsed).ch.filter
          (fun m => !m.isConst)
        = [Metric.gauge (scrapeStatusDesc ns) ["vs"] (float64 1),
            Metric.summary (scrapeDurationDesc ns) ["vs"]
              (((NewVSCollector ns partitionsList).after "vs"
                  earlier).collectorScrapeDuration.observations ["vs"] ++ [elapsed])]
      ∧ (vsRun ns partitionsList earlier (Except.ok allStats)
          elapsed).collector.collectorScrapeStatus.value ["vs"] = some (float64 1)
      ∧ (vsRun ns partitionsList earlier (Except.ok allStats) elapsed).panicked = false := by
  obtain ⟨hm, hp, hs, hd, hh⟩ := after_NewVSCollector ns partitionsList earlier
  have hv : ((NewVSCollector ns partitionsList).after "vs" earlier).descsAccepted := by
    unfold Collector.descsAccepted
    rw [hm]
    exact vsMetrics_accepted ns hns
  have hsplit := Collect_ok_split "vs" _ allStats elapsed hh hv hk
  have hrun := Collect_ok_run "vs" _ allStats elapsed hh hv hk
  rw [hm, hp] at hsplit
  rw [hs, hd] at hsplit
  exact ⟨hsplit.1, hsplit.2, hrun.2.1, hrun.2.2⟩

theorem length_eq_filter_add (ch : List Metric) :
    ch.length = (ch.filter Metric.isConst).length + (ch.filter (fun m => !m.isConst)).length := by
  induction ch with
  | nil => rfl
  | cons m rest ih =>
    cases hm : m.isConst <;> simp [List.filter_cons, hm, ih] <;> omega

/-! ## C2: the number of samples -/

/-- C2, counterexample. The claim fails at three inputs. With an allow-list
that is empty but not `nil`, a record whose partition `Common` passes the
allow-list as the specification words it (an empty list excludes nothing) gets
no catalog sample: 2 metrics are sent, not 1 * 10 + 2. With a record under the
key `stats`, which has no `/`, `Collect` panics having sent nothing: the number
of metrics is not `M * 10 + 2` for any `M`. With the namespace `big-ip`, which
gives series names the library refuses, `Collect` panics in
`MustNewConstMetric` on the first catalog sample of a record under a device
key, again having sent nothing. -/
theorem Collect_count_counterexample :
    (specAdmits (some []) "Common" = true
        ∧ keyLabels nodeKey = some ("Common", "node1")
        ∧ (nodeRun "bigip" (some []) [] (Except.ok [(nodeKey, nodeStatsZero)])
            (Float64.seconds 1)).ch.length ≠ 1 * 10 + 2)
      ∧ ((nodeRun "bigip" none [] (Except.ok [("stats", nodeStatsZero)])
            (Float64.seconds 1)).panicked = true
        ∧ ¬ ∃ M : Nat, (nodeRun "bigip" none [] (Except.ok [("stats", nodeStatsZero)])
            (Float64.seconds 1)).ch.length = M * 10 + 2)
      ∧ ((nodeRun "big-ip" none [] (Except.ok [(nodeKey, nodeStatsZero)])
            (Float64.seconds 1)).panicked = true
        ∧ ¬ ∃ M : Nat, (nodeRun "big-ip" none [] (Except.ok [(nodeKey, nodeStatsZero)])
            (Float64.seconds 1)).ch.length = M * 10 + 2) := by
  refine ⟨⟨by decide, by decide, by decide⟩, ⟨by decide, ?_⟩, ⟨by decide, ?_⟩⟩
  · have h : (nodeRun "bigip" none [] (Except.ok [("stats", nodeStatsZero)])
        (Float64.seconds 1)).ch = [] := by decide
    rw [h]
    rintro ⟨M, hM⟩
    simp at hM
  · have h : (nodeRun "big-ip" none [] (Except.ok [(nodeKey, nodeStatsZero)])
        (Float64.seconds 1)).ch = [] := by decide
    rw [h]
    rintro ⟨M, hM⟩
    simp at hM

/-- C2, amended. For a collector whose namespace the library accepts (empty,
or a valid metric name such as `bigip`) and every successful fetch whose
record keys all admit the derivation of a partition and a name, with `M` the
number of records whose partition the allow-list admits (every record when the
list is `nil`, the members of the list otherwise), `Collect` sends exactly
`M * 10` (node) or `M * 35` (virtual server) catalog samples and exactly 2
health samples, the gauge `collector_scrape_status` holds 1, and the call does
not panic. -/
theorem Collect_sample_count (ns : String) (partitionsList : Option (List String))
    (nodeEarlier : List (Except String (List (String × LBNodeStatsInnerEntries)) × Float64))
    (vsEarlier : List (Except String (List (String × LBVirtualStatsInnerEntries)) × Float64))
    (nodeStats : List (String × LBNodeStatsInnerEntries))
    (vsStats : List (String × LBVirtualStatsInnerEntries)) (elapsed : Float64)
    (hns : validNamespace ns = true)
    (hn : ∀ entry ∈ nodeStats, derivable entry.1 = true)
    (hv : ∀ entry ∈ vsStats, derivable entry.1 = true) :
    (((nodeRun ns partitionsList nodeEarlier (Except.ok nodeStats) elapsed).ch.filter
            Metric.isConst).length
          = (nodeStats.filter (fun entry => passes partitionsList entry.1)).length * 10
        ∧ ((nodeRun ns partitionsList nodeEarlier (Except.ok nodeStats) elapsed).ch.filter
            (fun m => !m.isConst)).length = 2
        ∧ (nodeRun ns partitionsList nodeEarlier (Except.ok nodeStats) elapsed).ch.length
          = (nodeStats.filter (fun entry => passes partitionsList entry.1)).length * 10 + 2
        ∧ (nodeRun ns partitionsList nodeEarlier (Except.ok nodeStats)
            elapsed).collector.collectorScrapeStatus.value ["node"] = some (float64 1)
        ∧ (nodeRun ns partitionsList nodeEarlier (Except.ok nodeStats) elapsed).panicked
          = false)
      ∧ (((vsRun ns partitionsList vsEarlier (Except.ok vsStats) elapsed).ch.filter
            Metric.isConst).length
          = (vsStats.filter (fun entry => passes partitionsList entry.1)).length * 35
        ∧ ((vsRun ns partitionsList vsEarlier (Except.ok vsStats) elapsed).ch.filter
            (fun m => !m.isConst)).length = 2
        ∧ (vsRun ns partitionsList vsEarlier (Except.ok vsStats) elapsed).ch.length
          = (vsStats.filter (fun entry => passes partitionsList entry.1)).length * 35 + 2
        ∧ (vsRun ns partitionsList vsEarlier (Except.ok vsStats)
            elapsed).collector.collectorScrapeStatus.value ["vs"] = some (float64 1)
        ∧ (vsRun ns partitionsList vsEarlier (Except.ok vsStats) elapsed).panicked = false) := by
  obtain ⟨hn1, hn2, hn3, hn4⟩ :=
    nodeRun_ok ns partitionsList nodeEarlier nodeStats elapsed hns hn
  obtain ⟨hv1, hv2, hv3, hv4⟩ := vsRun_ok ns partitionsList vsEarlier vsStats elapsed hns hv
  have hnc := catalogSamples_length (nodeMetrics ns) partitionsList nodeStats
  have hvc := catalogSamples_length (vsMetrics ns) partitionsList vsStats
  rw [length_nodeMetrics] at hnc
  rw [length_vsMetrics] at hvc
  refine ⟨⟨?_, ?_, ?_, hn3, hn4⟩, ⟨?_, ?_, ?_, hv3, hv4⟩⟩
  · rw [hn1, hnc]
  · rw [hn2]; rfl
  · rw [length_eq_filter_add, hn1, hn2, hnc]; rfl
  · rw [hv1, hvc]
  · rw [hv2]; rfl
  · rw [length_eq_filter_add, hv1, hv2, hvc]; rfl

/-- C2, witness: the namespace `bigip`, one node and one virtual server under
device keys, no allow-list. -/
theorem Collect_sample_count_witness :
    (validNamespace "bigip" = true
        ∧ (∀ entry ∈ [(nodeKey, nodeStatsZero)], derivable entry.1 = true)
        ∧ (∀ entry ∈ [(vsKey, vsStatsZero)], derivable entry.1 = true))
      ∧ ((nodeRun "bigip" none [] (Except.ok [(nodeKey, nodeStatsZero)])
            (Float64.seconds 1)).ch.length = 1 * 10 + 2
        ∧ (vsRun "bigip" none [] (Except.ok [(vsKey, vsStatsZero)])
            (Float64.seconds 1)).ch.length = 1 * 35 + 2) :=
  ⟨⟨by decide, by decide, by decide⟩,
    (Collect_sample_count "bigip" none [] [] [(nodeKey, nodeStatsZero)] [(vsKey, vsStatsZero)]
      (Float64.seconds 1) (by decide) (by decide) (by decide)).1.2.2.1,
    (Collect_sample_count "bigip" none [] [] [(nodeKey, nodeStatsZero)] [(vsKey, vsStatsZero)]
      (Float64.seconds 1) (by decide) (by decide) (by decide)).2.2.2.1⟩

/-! ## C3: the samples of every record -/

/-- C3, counterexample. The claim fails at three inputs. With an allow-list
that is empty but not `nil`, the node under a device key with partition
`Common` is not filtered out as the specification words the allow-list (an
empty list excludes nothing), yet no definition of the catalog gets its sample
for it. With two nodes and no allow-list, the first under the key `stats` and
the second under a device key, the second record is not filtered out; when the
iteration visits the first record first, `Collect` panics on its key and no
definition of the catalog gets its sample for the second record. With the
namespace `big-ip`, which gives series names the library refuses, `Collect`
panics in `MustNewConstMetric` and no definition gets its sample for the node
under a device key. -/
theorem Collect_record_samples_counterexample :
    (specAdmits (some []) "Common" = true
        ∧ keyLabels nodeKey = some ("Common", "node1")
        ∧ ¬ ∀ km ∈ nodeMetrics "bigip",
            (nodeRun "bigip" (some []) [] (Except.ok [(nodeKey, nodeStatsZero)])
                (Float64.seconds 1)).ch.count
              (Metric.constMetric km.2.desc km.2.valueType (km.2.extract nodeStatsZero)
                ["Common", "node1"]) = 1)
      ∧ ((nodeRun "bigip" none []
            (Except.ok [("stats", nodeStatsZero), (nodeKey, nodeStatsZero)])
            (Float64.seconds 1)).panicked = true
        ∧ ¬ ∀ km ∈ nodeMetrics "bigip",
            (nodeRun "bigip" none []
                (Except.ok [("stats", nodeStatsZero), (nodeKey, nodeStatsZero)])
                (Float64.seconds 1)).ch.count
              (Metric.constMetric km.2.desc km.2.valueType (km.2.extract nodeStatsZero)
                ["Common", "node1"]) = 1)
      ∧ ((nodeRun "big-ip" none [] (Except.ok [(nodeKey, nodeStatsZero)])
            (Float64.seconds 1)).panicked = true
        ∧ ¬ ∀ km ∈ nodeMetrics "big-ip",
            (nodeRun "big-ip" none [] (Except.ok [(nodeKey, nodeStatsZero)])
                (Float64.seconds 1)).ch.count
              (Metric.constMetric km.2.desc km.2.valueType (km.2.extract nodeStatsZero)
                ["Common", "node1"]) = 1) := by
  refine ⟨⟨by decide, by decide, ?_⟩, ⟨by decide, ?_⟩, ⟨by decide, ?_⟩⟩
  · have h : (nodeRun "bigip" (some []) [] (Except.ok [(nodeKey, nodeStatsZero)])
        (Float64.seconds 1)).ch
        = [Metric.gauge (scrapeStatusDesc "bigip") ["node"] (float64 1),
            Metric.summary (scrapeDurationDesc "bigip") ["node"] [Float64.seconds 1]] := by
      decide
    rw [h]
    intro hall
    have h1 := hall _ (List.mem_cons_self _ _)
    simp at h1
  · have h : (nodeRun "bigip" none []
        (Except.ok [("stats", nodeStatsZero), (nodeKey, nodeStatsZero)])
        (Float64.seconds 1)).ch = [] := by decide
    rw [h]
    intro hall
    have h1 := hall _ (List.mem_cons_self _ _)
    simp at h1
  · have h : (nodeRun "big-ip" none [] (Except.ok [(nodeKey, nodeStatsZero)])
        (Float64.seconds 1)).ch = [] := by decide
    rw [h]
    intro hall
    have h1 := hall _ (List.mem_cons_self _ _)
    simp at h1

/-- C3, amended. For a collector whose namespace the library accepts (empty,
or a valid metric name such as `bigip`), on a successful fetch whose record
keys all admit the derivation of a partition and a name, the catalog samples
`Collect` sends are,
up to their order, exactly: for every record that is not filtered out (the
allow-list is `nil` or holds the record's partition) and every definition of
the catalog, one sample with the definition's descriptor and kind, the label
values `[partition, objectName]` derived from the record's key and the value
of the definition's `extract` on the record; no other catalog sample is
sent. -/
theorem Collect_record_samples (ns : String) (partitionsList : Option (List String))
    (nodeEarlier : List (Except String (List (String × LBNodeStatsInnerEntries)) × Float64))
    (vsEarlier : List (Except String (List (String × LBVirtualStatsInnerEntries)) × Float64))
    (nodeStats : List (String × LBNodeStatsInnerEntries))
    (vsStats : List (String × LBVirtualStatsInnerEntries)) (elapsed : Float64)
    (hns : validNamespace ns = true)
    (hn : ∀ entry ∈ nodeStats, derivable entry.1 = true)
    (hv : ∀ entry ∈ vsStats, derivable entry.1 = true) :
    ((nodeRun ns partitionsList nodeEarlier (Except.ok nodeStats) elapsed).ch.filter
          Metric.isConst).Perm
        (nodeStats.flatMap (fun entry =>
            match keyLabels entry.1 with
            | none => []
            | some (partition, name) =>
              if partitionsList = none ∨ ∃ list, partitionsList = some list ∧ partition ∈ list
              then (nodeMetrics ns).map (fun km =>
                Metric.constMetric km.2.desc km.2.valueType (km.2.extract entry.2)
                  [partition, name])
              else []))
      ∧ ((vsRun ns partitionsList vsEarlier (Except.ok vsStats) elapsed).ch.filter
          Metric.isConst).Perm
        (vsStats.flatMap (fun entry =>
            match keyLabels entry.1 with
            | none => []
            | some (partition, name) =>
              if partitionsList = none ∨ ∃ list, partitionsList = some list ∧ partition ∈ list
              then (vsMetrics ns).map (fun km =>
                Metric.constMetric km.2.desc km.2.valueType (km.2.extract entry.2)
                  [partition, name])
              else [])) := by
  have key : ∀ {E : Type} (metrics : List (String × CatalogMetric E))
      (allStats : List (String × E)),
      catalogSamples metrics partitionsList allStats
        = allStats.flatMap (fun entry =>
            match keyLabels entry.1 with
            | none => []
            | some (partition, name) =>
              if partitionsList = none ∨ ∃ list, partitionsList = some list ∧ partition ∈ list
              then metrics.map (fun km =>
                Metric.constMetric km.2.desc km.2.valueType (km.2.extract entry.2)
                  [partition, name])
              else []) := by
    intro E metrics allStats
    unfold catalogSamples
    congr 1
    funext entry
    unfold entrySamples
    cases keyLabels entry.1 with
    | none => rfl
    | some pn =>
      obtain ⟨partition, name⟩ := pn
      simp only [admits_iff, recordSamples]
  rw [(nodeRun_ok ns partitionsList nodeEarlier nodeStats elapsed hns hn).1,
    (vsRun_ok ns partitionsList vsEarlier vsStats elapsed hns hv).1, key, key]
  exact ⟨List.Perm.refl _, List.Perm.refl _⟩

/-- C3, witness: the namespace `bigip`, one node and one virtual server under
device keys, no allow-list; the catalog samples are the 10 and the 35 samples of the record. -/
theorem Collect_record_samples_witness :
    (validNamespace "bigip" = true
        ∧ (∀ entry ∈ [(nodeKey, nodeStatsZero)], derivable entry.1 = true)
        ∧ (∀ entry ∈ [(vsKey, vsStatsZero)], derivable entry.1 = true))
      ∧ (((nodeRun "bigip" none [] (Except.ok [(nodeKey, nodeStatsZero)])
            (Float64.seconds 1)).ch.filter Metric.isConst).Perm
          ((nodeMetrics "bigip").map (fun km =>
              Metric.constMetric km.2.desc km.2.valueType (km.2.extract nodeStatsZero)
                ["Common", "node1"]))
        ∧ ((vsRun "bigip" none [] (Except.ok [(vsKey, vsStatsZero)])
            (Float64.seconds 1)).ch.filter Metric.isConst).Perm
          ((vsMetrics "bigip").map (fun km =>
              Metric.constMetric km.2.desc km.2.valueType (km.2.extract vsStatsZero)
                ["Common", "vs1"]))) := by
  have h := Collect_record_samples "bigip" none [] [] [(nodeKey, nodeStatsZero)]
    [(vsKey, vsStatsZero)] (Float64.seconds 1) (by decide) (by decide) (by decide)
  refine ⟨⟨by decide, by decide, by decide⟩, ?_, ?_⟩
  · exact h.1.trans (List.Perm.of_eq (by decide))
  · exact h.2.trans (List.Perm.of_eq (by decide))

/-! ## C5: the partition allow-list -/

/-- C5, counterexample. The claim fails at two inputs. With an allow-list that
is empty but not `nil`, the claim says no record is excluded; `Collect`
excludes the node under a device key with partition `Common`: the call
completes and sends no catalog sample. With the namespace `big-ip`, which
gives series names the library refuses, and the allow-list `["Common"]`, the
node of partition `Common` is a member and yet yields no sample: `Collect`
panics in `MustNewConstMetric`. -/
theorem Collect_empty_allow_list_counterexample :
    (keyLabels nodeKey = some ("Common", "node1")
        ∧ (nodeRun "bigip" (some []) [] (Except.ok [(nodeKey, nodeStatsZero)])
            (Float64.seconds 1)).panicked = false
        ∧ ¬ ∃ m ∈ (nodeRun "bigip" (some []) [] (Except.ok [(nodeKey, nodeStatsZero)])
              (Float64.seconds 1)).ch,
            m.isConst = true ∧ m.labelValues = ["Common", "node1"])
      ∧ ((nodeRun "big-ip" (some ["Common"]) [] (Except.ok [(nodeKey, nodeStatsZero)])
            (Float64.seconds 1)).panicked = true
        ∧ ¬ ∃ m ∈ (nodeRun "big-ip" (some ["Common"]) []
              (Except.ok [(nodeKey, nodeStatsZero)]) (Float64.seconds 1)).ch,
            m.isConst = true ∧ m.labelValues = ["Common", "node1"]) := by
  decide

/-- C5, amended. For a collector whose namespace the library accepts (empty,
or a valid metric name such as `bigip`), on a successful fetch whose record
keys all admit the derivation: when the allow-list is not `nil` (empty or
not), a record yields
catalog samples if and only if its partition is a member of the list, so an
empty list that is not `nil` excludes every record; when the allow-list is
`nil`, no record is excluded. -/
theorem Collect_partition_filter (ns : String) (partitionsList : Option (List String))
    (nodeEarlier : List (Except String (List (String × LBNodeStatsInnerEntries)) × Float64))
    (vsEarlier : List (Except String (List (String × LBVirtualStatsInnerEntries)) × Float64))
    (nodeStats : List (String × LBNodeStatsInnerEntries))
    (vsStats : List (String × LBVirtualStatsInnerEntries)) (elapsed : Float64)
    (hns : validNamespace ns = true)
    (hn : ∀ entry ∈ nodeStats, derivable entry.1 = true)
    (hv : ∀ entry ∈ vsStats, derivable entry.1 = true) :
    (∀ entry ∈ nodeStats, ∀ partition name, keyLabels entry.1 = some (partition, name) →
        ((∃ m ∈ (nodeRun ns partitionsList nodeEarlier (Except.ok nodeStats) elapsed).ch,
            m.isConst = true ∧ m.labelValues = [partition, name])
          ↔ (partitionsList = none
              ∨ ∃ list, partitionsList = some list ∧ partition ∈ list)))
      ∧ (∀ entry ∈ vsStats, ∀ partition name, keyLabels entry.1 = some (partition, name) →
        ((∃ m ∈ (vsRun ns partitionsList vsEarlier (Except.ok vsStats) elapsed).ch,
            m.isConst = true ∧ m.labelValues = [partition, name])
          ↔ (partitionsList = none
              ∨ ∃ list, partitionsList = some list ∧ partition ∈ list))) := by
  obtain ⟨hnm, hnp, _, _, hnh⟩ := after_NewNodeCollector ns partitionsList nodeEarlier
  obtain ⟨hvm, hvp, _, _, hvh⟩ := after_NewVSCollector ns partitionsList vsEarlier
  constructor
  · intro entry he partition name hkl
    have hacc : ((NewNodeCollector ns partitionsList).after "node"
        nodeEarlier).descsAccepted := by
      unfold Collector.descsAccepted
      rw [hnm]
      exact nodeMetrics_accepted ns hns
    have h := Collect_ok_yields_iff "node" _ nodeStats elapsed hnh hacc hn
      (by rw [hnm]; exact List.cons_ne_nil _ _) entry he partition name hkl
    rw [hnp] at h
    exact h
  · intro entry he partition name hkl
    have hacc : ((NewVSCollector ns partitionsList).after "vs" vsEarlier).descsAccepted := by
      unfold Collector.descsAccepted
      rw [hvm]
      exact vsMetrics_accepted ns hns
    have h := Collect_ok_yields_iff "vs" _ vsStats elapsed hvh hacc hv
      (by rw [hvm]; exact List.cons_ne_nil _ _) entry he partition name hkl
    rw [hvp] at h
    exact h

/-- C5, witness: under the namespace `bigip` the allow-list `["Common"]` keeps
the node of partition `Common` and drops the virtual server of partition
`Other`. -/
theorem Collect_partition_filter_witness :
    (validNamespace "bigip" = true
        ∧ (∀ entry ∈ [(nodeKey, nodeStatsZero)], derivable entry.1 = true)
        ∧ (∀ entry ∈ [("https://localhost/mgmt/tm/ltm/virtual/~Other~vs2/stats", vsStatsZero)],
            derivable entry.1 = true))
      ∧ ((∃ m ∈ (nodeRun "bigip" (some ["Common"]) [] (Except.ok [(nodeKey, nodeStatsZero)])
              (Float64.seconds 1)).ch,
            m.isConst = true ∧ m.labelValues = ["Common", "node1"])
        ∧ ¬ ∃ m ∈ (vsRun "bigip" (some ["Common"]) []
              (Except.ok [("https://localhost/mgmt/tm/ltm/virtual/~Other~vs2/stats",
                vsStatsZero)])
              (Float64.seconds 1)).ch,
            m.isConst = true ∧ m.labelValues = ["Other", "vs2"]) := by
  have h := Collect_partition_filter "bigip" (some ["Common"]) [] []
    [(nodeKey, nodeStatsZero)]
    [("https://localhost/mgmt/tm/ltm/virtual/~Other~vs2/stats", vsStatsZero)]
    (Float64.seconds 1) (by decide) (by decide) (by decide)
  refine ⟨⟨by decide, by decide, by decide⟩, ?_, ?_⟩
  · exact (h.1 _ (List.mem_cons_self _ _) "Common" "node1" (by decide)).mpr
      (Or.inr ⟨["Common"], rfl, List.mem_cons_self _ _⟩)
  · intro hex
    have := (h.2 _ (List.mem_cons_self _ _) "Other" "vs2" (by decide)).mp hex
    simp at this

/-! ## C6: the health samples -/

/-- A call of `Collect` that does not panic sends both health samples, whatever
the fetch returned. -/
theorem Collect_health_samples_unless_panic {E : Type} (collector : String) (c : Collector E)
    (fetch : Except String (List (String × E))) (elapsed : Float64)
    (h : c.healthChildren collector)
    (hp : (Collector.Collect collector c fetch elapsed).panicked = false) :
    (∃ v, Metric.gauge c.collectorScrapeStatus.desc [collector] v
        ∈ (Collector.Collect collector c fetch elapsed).ch)
      ∧ Metric.summary c.collectorScrapeDuration.desc [collector]
          (c.collectorScrapeDuration.observations [collector] ++ [elapsed])
        ∈ (Collector.Collect collector c fetch elapsed).ch := by
  cases fetch with
  | error err =>
    rw [(Collect_error_run collector c err elapsed h).1]
    exact ⟨⟨float64 0, List.mem_cons_self _ _⟩, by simp⟩
  | ok allStats =>
    rcases hr : rangeEntries c allStats [] with ⟨ch, ok⟩
    cases ok with
    | true =>
      rw [Collect_ok_done collector c allStats elapsed ch hr,
        (status_Collect_of_health collector c h (float64 1)).1,
        (duration_Collect_of_health collector c h elapsed).1]
      exact ⟨⟨float64 1, by simp⟩, by simp⟩
    | false =>
      rw [Collect_ok_panic collector c allStats elapsed ch hr] at hp
      exact absurd hp (Bool.noConfusion)

/-- C6, the code at the failing input. A successful fetch returns one record
under the key `stats`, which has no `/`: both collectors panic at
`keyParts[len(keyParts)-2]` and send no metric at all, so neither health
sample is emitted. -/
theorem Collect_panics_without_health_samples :
    keyLabels "stats" = none
      ∧ (nodeRun "bigip" none [] (Except.ok [("stats", nodeStatsZero)])
          (Float64.seconds 1)).panicked = true
      ∧ (nodeRun "bigip" none [] (Except.ok [("stats", nodeStatsZero)])
          (Float64.seconds 1)).ch = []
      ∧ (vsRun "bigip" none [] (Except.ok [("stats", vsStatsZero)])
          (Float64.seconds 1)).panicked = true
      ∧ (vsRun "bigip" none [] (Except.ok [("stats", vsStatsZero)])
          (Float64.seconds 1)).ch = [] := by
  decide

/-! ## C7: descriptor stability -/

/-- C7. For every call of `Collect` of either collector, whether the fetch
fails or succeeds (and also when the call panics part-way), the descriptor of
every metric sent is one that `Describe` of the same collector declares, and
`Describe` declares the descriptors of the catalog followed by those of
`collector_scrape_status` and `collector_scrape_duration`. -/
theorem Collect_descriptors_subset_Describe (ns : String)
    (partitionsList : Option (List String))
    (nodeEarlier : List (Except String (List (String × LBNodeStatsInnerEntries)) × Float64))
    (vsEarlier : List (Except String (List (String × LBVirtualStatsInnerEntries)) × Float64))
    (nodeFetch : Except String (List (String × LBNodeStatsInnerEntries)))
    (vsFetch : Except String (List (String × LBVirtualStatsInnerEntries)))
    (elapsed : Float64) :
    ((nodeRun ns partitionsList nodeEarlier nodeFetch elapsed).ch.map Metric.desc
          ⊆ NodeCollector.Describe ((NewNodeCollector ns partitionsList).after "node" nodeEarlier)
        ∧ NodeCollector.Describe ((NewNodeCollector ns partitionsList).after "node" nodeEarlier)
          = (nodeMetrics ns).map (fun km => km.2.desc)
            ++ [scrapeStatusDesc ns, scrapeDurationDesc ns])
      ∧ ((vsRun ns partitionsList vsEarlier vsFetch elapsed).ch.map Metric.desc
          ⊆ VSCollector.Describe ((NewVSCollector ns partitionsList).after "vs" vsEarlier)
        ∧ VSCollector.Describe ((NewVSCollector ns partitionsList).after "vs" vsEarlier)
          = (vsMetrics ns).map (fun km => km.2.desc)
            ++ [scrapeStatusDesc ns, scrapeDurationDesc ns]) := by
  obtain ⟨hnm, _, hns, hnd, _⟩ := after_NewNodeCollector ns partitionsList nodeEarlier
  obtain ⟨hvm, _, hvs, hvd, _⟩ := after_NewVSCollector ns partitionsList vsEarlier
  refine ⟨⟨?_, ?_⟩, ⟨?_, ?_⟩⟩
  · intro d hd
    obtain ⟨m, hm, rfl⟩ := List.mem_map.mp hd
    exact Collect_desc_mem_Describe "node" _ nodeFetch elapsed m hm
  · unfold NodeCollector.Describe Collector.Describe GaugeVec.Describe SummaryVec.Describe
    rw [hnm, hns, hnd]
    simp
  · intro d hd
    obtain ⟨m, hm, rfl⟩ := List.mem_map.mp hd
    exact Collect_desc_mem_Describe "vs" _ vsFetch elapsed m hm
  · unfold VSCollector.Describe Collector.Describe GaugeVec.Describe SummaryVec.Describe
    rw [hvm, hvs, hvd]
    simp

/-! ## C4: the derivation of the labels from a key -/

theorem index_len_sub_two {α : Type} (xs : List α) :
    index xs (len xs - 2) = xs.reverse[1]? := by
  unfold index len
  by_cases h : xs.length < 2
  · have h1 : ((xs.length : Int) - 2 < 0) := by omega
    rw [if_pos h1]
    symm
    apply List.getElem?_eq_none
    simp
    omega
  · have h1 : ¬ ((xs.length : Int) - 2 < 0) := by omega
    rw [if_neg h1, List.get?_eq_getElem?, List.getElem?_reverse (by omega)]
    congr 1
    omega

theorem index_len_sub_one {α : Type} (xs : List α) :
    index xs (len xs - 1) = xs.getLast? := by
  unfold index len
  rw [List.getLast?_eq_getElem?]
  by_cases h : xs.length < 1
  · have h1 : ((xs.length : Int) - 1 < 0) := by omega
    rw [if_pos h1]
    symm
    apply List.getElem?_eq_none
    omega
  · have h1 : ¬ ((xs.length : Int) - 1 < 0) := by omega
    rw [if_neg h1, List.get?_eq_getElem?]
    congr 1
    omega

theorem index_one {α : Type} (xs : List α) : index xs 1 = xs[1]? := by
  unfold index
  rw [if_neg (by decide), List.get?_eq_getElem?]
  rfl

theorem keyLabels_eq_some_iff (key partition name : String) :
    keyLabels key = some (partition, name)
      ↔ ∃ path, (strings.Split key '/').reverse[1]? = some path
          ∧ (strings.Split path '~')[1]? = some partition
          ∧ (strings.Split path '~').getLast? = some name := by
  unfold keyLabels
  simp only [index_len_sub_two, index_len_sub_one, index_one]
  cases h1 : (strings.Split key '/').reverse[1]? with
  | none => simp
  | some path =>
    cases h2 : (strings.Split path '~')[1]? with
    | none => simp [h2]
    | some p =>
      cases h3 : (strings.Split path '~').getLast? with
      | none => simp [h2, h3]
      | some n => simp [h2, h3]

/-- C4, counterexample. For the raw key `...~Common~app/~Common~node1` the
derivation does not yield the object name `node1`: the second-to-last
`/`-delimited segment is `...~Common~app`, so the name is `app`. -/
theorem keyLabels_spec_key_counterexample :
    keyLabels "...~Common~app/~Common~node1" ≠ some ("Common", "node1") := by
  decide

/-- C4, amended. The derivation takes the second-to-last `/`-delimited segment
of the raw key as the path; the partition is the second `~`-delimited segment
of the path and the object name is the last `~`-delimited segment of the path.
For the raw key `...~Common~app/~Common~node1` it yields partition `Common`
and object name `app`; for a device key `.../~Common~node1/stats` it yields
partition `Common` and object name `node1`. -/
theorem keyLabels_segments (key partition name : String) :
    (keyLabels key = some (partition, name)
        ↔ ∃ path, (strings.Split key '/').reverse[1]? = some path
            ∧ (strings.Split path '~')[1]? = some partition
            ∧ (strings.Split path '~').getLast? = some name)
      ∧ keyLabels "...~Common~app/~Common~node1" = some ("Common", "app")
      ∧ keyLabels "https://localhost/mgmt/tm/ltm/node/~Common~node1/stats"
          = some ("Common", "node1") :=
  ⟨keyLabels_eq_some_iff key partition name, by decide, by decide⟩

/-! ## C8: bits to bytes -/

theorem tdiv_eight_eq_floor (b : Int) (hb : 0 ≤ b) : Int.tdiv b 8 = ⌊(b : ℚ) / 8⌋ := by
  rw [Int.tdiv_eq_ediv hb (by decide)]
  have h := Rat.floor_intCast_div_natCast b 8
  simpa using h.symm

theorem lostBits_of_lt (fuel n : Nat) (h : n < 2 ^ 53) : lostBits fuel n = 0 := by
  cases fuel with
  | zero => rfl
  | succ k => rw [lostBits, if_pos h]

theorem roundFloat64_exact (n : Nat) (h : n < 2 ^ 53) : roundFloat64 n = n := by
  unfold roundFloat64
  rw [lostBits_of_lt 11 n h]
  simp [Nat.mod_one]

/-- The conversion is exact on the integers from 0 to below `2 ^ 53`. -/
theorem float64_exact (i : Int) (h0 : 0 ≤ i) (h : i < 2 ^ 53) : float64 i = Float64.ofInt i := by
  unfold float64
  have hlt : i.natAbs < 2 ^ 53 := by omega
  rw [if_neg (by omega), roundFloat64_exact i.natAbs hlt]
  congr 1
  omega

/-- Each byte series converts the integer `floor(b / 8)` to `float64`, for every
bit counter `b ≥ 0`. -/
theorem byte_series_conversion (ns : String) (b : Int) (hb : 0 ≤ b)
    (node : LBNodeStatsInnerEntries) (vs : LBVirtualStatsInnerEntries) :
    (((nodeMetrics ns).lookup "serverside_bytesOut").map
          (fun m => m.extract { node with Serverside_bitsOut := ⟨b⟩ })
        = some (float64 ⌊(b : ℚ) / 8⌋)
      ∧ ((nodeMetrics ns).lookup "serverside_bytesIn").map
          (fun m => m.extract { node with Serverside_bitsIn := ⟨b⟩ })
        = some (float64 ⌊(b : ℚ) / 8⌋))
      ∧ (((vsMetrics ns).lookup "clientside_bytesOut").map
          (fun m => m.extract { vs with Clientside_bitsOut := ⟨b⟩ })
        = some (float64 ⌊(b : ℚ) / 8⌋)
      ∧ ((vsMetrics ns).lookup "clientside_bytesIn").map
          (fun m => m.extract { vs with Clientside_bitsIn := ⟨b⟩ })
        = some (float64 ⌊(b : ℚ) / 8⌋)
      ∧ ((vsMetrics ns).lookup "ephemeral_bytesOut").map
          (fun m => m.extract { vs with Ephemeral_bitsOut := ⟨b⟩ })
        = some (float64 ⌊(b : ℚ) / 8⌋)
      ∧ ((vsMetrics ns).lookup "ephemeral_bytesIn").map
          (fun m => m.extract { vs with Ephemeral_bitsIn := ⟨b⟩ })
        = some (float64 ⌊(b : ℚ) / 8⌋)) := by
  rw [← tdiv_eight_eq_floor b hb]
  exact ⟨⟨rfl, rfl⟩, rfl, rfl, rfl, rfl⟩

/-- C8, counterexample. For the bit counter `b = 72057594037927944`, which is
`8 * (2 ^ 53 + 1)`, the integer `floor(b / 8)` is 9007199254740993, and the
`extract` of the node series `serverside_bytesOut` returns the float
9007199254740992: the conversion to `float64` rounds, so the result is not
`floor(b / 8)`. -/
theorem byte_series_extract_counterexample :
    Int.fdiv 72057594037927944 8 = 9007199254740993
      ∧ ((nodeMetrics "bigip").lookup "serverside_bytesOut").map
          (fun m => m.extract
            { nodeStatsZero with Serverside_bitsOut := ⟨72057594037927944⟩ })
        = some (Float64.ofInt 9007199254740992)
      ∧ ((nodeMetrics "bigip").lookup "serverside_bytesOut").map
          (fun m => m.extract
            { nodeStatsZero with Serverside_bitsOut := ⟨72057594037927944⟩ })
        ≠ some (Float64.ofInt (Int.fdiv 72057594037927944 8)) := by
  decide

/-- C8, amended. For every bit counter `b` with `0 ≤ b < 2 ^ 56`, the `extract`
of each byte series (node `serverside_bytesOut`, `serverside_bytesIn`; virtual
server `clientside_bytesOut`, `clientside_bytesIn`, `ephemeral_bytesOut`,
`ephemeral_bytesIn`) on a record whose bit counter is `b` is the float whose
value is exactly the integer `floor(b / 8)`: the division is done on the
integer, and below `2 ^ 56` the conversion to `float64` does not round. -/
theorem byte_series_extract (ns : String) (b : Int) (hb : 0 ≤ b) (hlt : b < 2 ^ 56)
    (node : LBNodeStatsInnerEntries) (vs : LBVirtualStatsInnerEntries) :
    (((nodeMetrics ns).lookup "serverside_bytesOut").map
          (fun m => m.extract { node with Serverside_bitsOut := ⟨b⟩ })
        = some (Float64.ofInt ⌊(b : ℚ) / 8⌋)
      ∧ ((nodeMetrics ns).lookup "serverside_bytesIn").map
          (fun m => m.extract { node with Serverside_bitsIn := ⟨b⟩ })
        = some (Float64.ofInt ⌊(b : ℚ) / 8⌋))
      ∧ (((vsMetrics ns).lookup "clientside_bytesOut").map
          (fun m => m.extract { vs with Clientside_bitsOut := ⟨b⟩ })
        = some (Float64.ofInt ⌊(b : ℚ) / 8⌋)
      ∧ ((vsMetrics ns).lookup "clientside_bytesIn").map
          (fun m => m.extract { vs with Clientside_bitsIn := ⟨b⟩ })
        = some (Float64.ofInt ⌊(b : ℚ) / 8⌋)
      ∧ ((vsMetrics ns).lookup "ephemeral_bytesOut").map
          (fun m => m.extract { vs with Ephemeral_bitsOut := ⟨b⟩ })
        = some (Float64.ofInt ⌊(b : ℚ) / 8⌋)
      ∧ ((vsMetrics ns).lookup "ephemeral_bytesIn").map
          (fun m => m.extract { vs with Ephemeral_bitsIn := ⟨b⟩ })
        = some (Float64.ofInt ⌊(b : ℚ) / 8⌋)) := by
  have hconv := byte_series_conversion ns b hb node vs
  have hfloor : ⌊(b : ℚ) / 8⌋ = Int.tdiv b 8 := (tdiv_eight_eq_floor b hb).symm
  have hdiv : Int.tdiv b 8 = b / 8 := Int.tdiv_eq_ediv hb (by decide)
  have hexact : float64 ⌊(b : ℚ) / 8⌋ = Float64.ofInt ⌊(b : ℚ) / 8⌋ := by
    apply float64_exact
    · rw [hfloor, hdiv]; omega
    · rw [hfloor, hdiv]; omega
  rw [hexact] at hconv
  exact hconv

/-- C8, witness: a counter of 800 bits yields 100 bytes in each byte series. -/
theorem byte_series_extract_witness :
    ((0 : Int) ≤ 800 ∧ (800 : Int) < 2 ^ 56)
      ∧ (((nodeMetrics "bigip").lookup "serverside_bytesOut").map
          (fun m => m.extract { nodeStatsZero with Serverside_bitsOut := ⟨800⟩ })
        = some (Float64.ofInt 100)
      ∧ ((nodeMetrics "bigip").lookup "serverside_bytesIn").map
          (fun m => m.extract { nodeStatsZero with Serverside_bitsIn := ⟨800⟩ })
        = some (Float64.ofInt 100))
      ∧ (((vsMetrics "bigip").lookup "clientside_bytesOut").map
          (fun m => m.extract { vsStatsZero with Clientside_bitsOut := ⟨800⟩ })
        = some (Float64.ofInt 100)
      ∧ ((vsMetrics "bigip").lookup "clientside_bytesIn").map
          (fun m => m.extract { vsStatsZero with Clientside_bitsIn := ⟨800⟩ })
        = some (Float64.ofInt 100)
      ∧ ((vsMetrics "bigip").lookup "ephemeral_bytesOut").map
          (fun m => m.extract { vsStatsZero with Ephemeral_bitsOut := ⟨800⟩ })
        = some (Float64.ofInt 100)
      ∧ ((vsMetrics "bigip").lookup "ephemeral_bytesIn").map
          (fun m => m.extract { vsStatsZero with Ephemeral_bitsIn := ⟨800⟩ })
        = some (Float64.ofInt 100)) := by
  have h := byte_series_extract "bigip" 800 (by decide) (by decide) nodeStatsZero vsStatsZero
  have e : ⌊((800 : Int) : ℚ) / 8⌋ = 100 := by
    rw [← tdiv_eight_eq_floor 800 (by decide)]
    decide
  rw [e] at h
  exact ⟨⟨by decide, by decide⟩, h⟩

/-! ## C9: the availability state -/

/-- C9. In both catalogs the `extract` of `status_availabilityState` returns 1
exactly when the availability description is the string `available`, and 0 for
every other string, among them the empty string and strings that differ from
it only in case or whitespace. -/
theorem availability_extract (ns : String) (d : String) (node : LBNodeStatsInnerEntries)
    (vs : LBVirtualStatsInnerEntries) :
    ((((nodeMetrics ns).lookup "status_availabilityState").map
            (fun m => m.extract { node with Status_availabilityState := ⟨d⟩ })
          = some (float64 1) ↔ d = "available")
        ∧ (((nodeMetrics ns).lookup "status_availabilityState").map
            (fun m => m.extract { node with Status_availabilityState := ⟨d⟩ })
          = some (float64 0) ↔ d ≠ "available")
        ∧ (((vsMetrics ns).lookup "status_availabilityState").map
            (fun m => m.extract { vs with Status_availabilityState := ⟨d⟩ })
          = some (float64 1) ↔ d = "available")
        ∧ (((vsMetrics ns).lookup "status_availabilityState").map
            (fun m => m.extract { vs with Status_availabilityState := ⟨d⟩ })
          = some (float64 0) ↔ d ≠ "available"))
      ∧ (∀ s ∈ ["", "Available", "AVAILABLE", " available", "available ", "offline",
            "unknown"],
          ((nodeMetrics ns).lookup "status_availabilityState").map
              (fun m => m.extract { node with Status_availabilityState := ⟨s⟩ })
            = some (float64 0)
          ∧ ((vsMetrics ns).lookup "status_availabilityState").map
              (fun m => m.extract { vs with Status_availabilityState := ⟨s⟩ })
            = some (float64 0)) := by
  have hn : ∀ s : String, ((nodeMetrics ns).lookup "status_availabilityState").map
      (fun m => m.extract { node with Status_availabilityState := ⟨s⟩ })
      = some (if s = "available" then float64 1 else float64 0) := fun _ => rfl
  have hv : ∀ s : String, ((vsMetrics ns).lookup "status_availabilityState").map
      (fun m => m.extract { vs with Status_availabilityState := ⟨s⟩ })
      = some (if s = "available" then float64 1 else float64 0) := fun _ => rfl
  have h10 : float64 1 ≠ float64 0 := by decide
  refine ⟨?_, ?_⟩
  · rw [hn, hv]
    by_cases hd : d = "available"
    · simp [hd, h10]
    · simp [hd, h10.symm]
  · intro s hs
    rw [hn, hv]
    have hne : s ≠ "available" := by
      simp only [List.mem_cons, List.mem_singleton, List.not_mem_nil, or_false] at hs
      rcases hs with h | h | h | h | h | h | h <;> rw [h] <;> decide
    simp [hne]

/-! ## C10: a scrape request without target -/

/-- The test `target == ""` of the handler holds exactly when the parameter is
missing, has no value, or has the empty string as its first value. -/
theorem Values.Get_eq_empty_iff (v : Values) (key : String) :
    Values.Get v key = ""
      ↔ v.lookup key = none ∨ v.lookup key = some []
          ∨ ∃ rest, v.lookup key = some ("" :: rest) := by
  unfold Values.Get
  cases h : v.lookup key with
  | none => simp
  | some xs =>
    cases xs with
    | nil => simp
    | cons x rest => simp

/-- C10. For every scrape request whose `target` parameter is empty or missing,
the handler answers with status 400 and returns: it makes no call at all, so it
does not resolve credentials, build a device handle or register a collector,
and it does not terminate the process. -/
theorem newHandler_missing_target
    (credentialsForTarget : String → Except String Credentials) (r : Request)
    (h : r.Query.Get "target" = "") :
    newHandler credentialsForTarget { written := none } r
        = { w := { written := some (400, "'target' parameter must be specified") }
            calls := []
            exited := false }
      ∧ (newHandler credentialsForTarget { written := none } r).w.statusCode = 400 := by
  unfold newHandler
  simp only [h, if_true]
  exact ⟨rfl, rfl⟩

/-- C10, witness: a request without any parameter, and a request whose `target`
parameter is the empty string. -/
theorem newHandler_missing_target_witness :
    (Values.Get [] "target" = "" ∧ Values.Get [("target", [""])] "target" = "")
      ∧ (newHandler (fun _ => Except.ok { User := "u", Password := "p", BasicAuth := false })
            { written := none } { Method := "GET", Query := [] }).calls = []
      ∧ (newHandler (fun _ => Except.ok { User := "u", Password := "p", BasicAuth := false })
            { written := none } { Method := "GET", Query := [("target", [""])] }).w.statusCode
          = 400 := by
  refine ⟨⟨by decide, by decide⟩, ?_, ?_⟩
  · rw [(newHandler_missing_target _ { Method := "GET", Query := [] } (by decide)).1]
  · exact (newHandler_missing_target _ { Method := "GET", Query := [("target", [""])] }
      (by decide)).2

/-! ## C11: a scrape request whose credentials cannot be resolved -/

/-- A scrape request with a non-empty target whose credentials cannot be
resolved: the handler writes no response and terminates the process. -/
theorem newHandler_unresolved (credentialsForTarget : String → Except String Credentials)
    (r : Request) (err : String) (ht : r.Query.Get "target" ≠ "")
    (he : credentialsForTarget (r.Query.Get "target") = Except.error err) :
    newHandler credentialsForTarget { written := none } r
      = { w := { written := none }
          calls := [Call.CredentialsForTarget (r.Query.Get "target")]
          exited := true } := by
  unfold newHandler
  simp only [ht, if_false, he]

/-- C11, the code at the failing input. A scrape request for the target
`lb9.example.com`, for which `CredentialsForTarget` returns an error: after
that call the handler terminates the process (`log.Fatalf`) and has written no
response, so the client sees no error response and no later request is
served. -/
theorem newHandler_exits_on_unresolved_target :
    newHandler (fun target => Except.error ("no credentials found for target " ++ target))
        { written := none }
        { Method := "GET", Query := [("target", ["lb9.example.com"])] }
      = { w := { written := none }
          calls := [Call.CredentialsForTarget "lb9.example.com"]
          exited := true } := by
  decide

/-! ## C12: the reload endpoint -/

/-- C12. `updateConfiguration` answers a POST with status 200 when the reload
the worker ran succeeded, and with status 500 and the text
`failed to reload config: ` followed by the error when it failed; in both
cases a reload was requested. Every other method is answered with status 400
and no reload is requested. -/
theorem updateConfiguration_responses (query : Values) (err : String) (method : String)
    (hm : method ≠ "POST") :
    ((updateConfiguration (reloadWorker none) { written := none }
            { Method := "POST", Query := query }).w.statusCode = 200
        ∧ (updateConfiguration (reloadWorker none) { written := none }
            { Method := "POST", Query := query }).reloadRequested = true)
      ∧ ((updateConfiguration (reloadWorker (some err)) { written := none }
            { Method := "POST", Query := query }).w
          = { written := some (500, "failed to reload config: " ++ err) }
        ∧ (updateConfiguration (reloadWorker (some err)) { written := none }
            { Method := "POST", Query := query }).w.statusCode = 500
        ∧ (updateConfiguration (reloadWorker (some err)) { written := none }
            { Method := "POST", Query := query }).reloadRequested = true)
      ∧ (∀ reloadConfig : Option String,
          (updateConfiguration (reloadWorker reloadConfig) { written := none }
              { Method := method, Query := query }).w.statusCode = 400
          ∧ (updateConfiguration (reloadWorker reloadConfig) { written := none }
              { Method := method, Query := query }).reloadRequested = false) := by
  refine ⟨⟨rfl, rfl⟩, ⟨rfl, rfl, rfl⟩, ?_⟩
  intro reloadConfig
  unfold updateConfiguration
  simp only [hm, if_false]
  exact ⟨rfl, trivial⟩

/-- C12, witness: a GET, and a `post` in lower case, are answered with 400
without a reload; a POST whose reload fails with `bad yaml` is answered
with 500. -/
theorem updateConfiguration_responses_witness :
    ("GET" ≠ "POST" ∧ "post" ≠ "POST")
      ∧ (updateConfiguration (reloadWorker none) { written := none }
          { Method := "GET", Query := [] })
        = { w := { written := some (400, "POST method expected") }, reloadRequested := false }
      ∧ (updateConfiguration (reloadWorker none) { written := none }
          { Method := "post", Query := [] }).w.statusCode = 400
      ∧ (updateConfiguration (reloadWorker (some "bad yaml")) { written := none }
          { Method := "POST", Query := [] }).w
        = { written := some (500, "failed to reload config: bad yaml") } := by
  have hget := updateConfiguration_responses [] "bad yaml" "GET" (by decide)
  have hpost := updateConfiguration_responses [] "bad yaml" "post" (by decide)
  refine ⟨⟨by decide, by decide⟩, by decide, (hpost.2.2 none).1, ?_⟩
  rw [hget.2.1.1]
  decide

/-! ## C13: keys and names of the catalogs -/

theorem String.append_left_cancel_eq (p a b : String) (h : p ++ a = p ++ b) : a = b := by
  have hd := congrArg String.data h
  rw [String.data_append, String.data_append] at hd
  exact String.ext (List.append_cancel_left hd)

theorem BuildFQName_injective (ns subsystem a b : String) (hs : subsystem ≠ "")
    (ha : a ≠ "") (hb : b ≠ "") (h : BuildFQName ns subsystem a = BuildFQName ns subsystem b) :
    a = b := by
  unfold BuildFQName at h
  rw [if_neg ha, if_neg hb] at h
  by_cases hn : ns = ""
  · have h1 : ¬ (ns ≠ "" ∧ subsystem ≠ "") := fun hc => hc.1 hn
    have h2 : ¬ ns ≠ "" := fun hc => hc hn
    rw [if_neg h1, if_neg h1, if_neg h2, if_neg h2, if_pos hs, if_pos hs] at h
    exact String.append_left_cancel_eq _ a b h
  · have h1 : ns ≠ "" ∧ subsystem ≠ "" := ⟨hn, hs⟩
    rw [if_pos h1, if_pos h1] at h
    exact String.append_left_cancel_eq _ a b h

theorem nodup_map_BuildFQName (ns subsystem : String) (names : List String)
    (hs : subsystem ≠ "") (hne : ∀ a ∈ names, a ≠ "") (hnd : names.Nodup) :
    (names.map (BuildFQName ns subsystem)).Nodup := by
  apply List.Nodup.map_on _ hnd
  intro a ha b hb hab
  exact BuildFQName_injective ns subsystem a b hs (hne a ha) (hne b hb) hab

/-- C13. For every namespace string, the node catalog has 10 definitions and
the virtual-server catalog has 35, no two definitions of a catalog share a
key, and no two definitions of a catalog share a fully-qualified series
name. -/
theorem catalog_keys_and_names_unique (ns : String) :
    ((nodeMetrics ns).length = 10
        ∧ ((nodeMetrics ns).map (fun km => km.1)).Nodup
        ∧ ((nodeMetrics ns).map (fun km => km.2.desc.fqName)).Nodup)
      ∧ ((vsMetrics ns).length = 35
        ∧ ((vsMetrics ns).map (fun km => km.1)).Nodup
        ∧ ((vsMetrics ns).map (fun km => km.2.desc.fqName)).Nodup) := by
  have hnode : (nodeMetrics ns).map (fun km => km.2.desc.fqName)
      = (["serverside_bytes_transmitted_total", "serverside_connections_concurrent_max",
          "serverside_connections", "serverside_packets_transmitted_total", "requests_total",
          "serverside_packets_received_total", "serverside_connections_total",
          "serverside_bytes_received_total", "sessions",
          "status_availability_state"].map (BuildFQName ns "node")) := rfl
  have hvs : (vsMetrics ns).map (fun km => km.2.desc.fqName)
      = (["syncookie_accepts", "ephemeral_bytes_transmitted_total",
          "clientside_bytes_transmitted_total", "five_min_avg_usage_ratio",
          "five_sec_avg_usage_ratio", "syncookie_syncookies", "ephemeral_slow_killed",
          "ephemeral_packets_transmitted_total", "syncookie_rejects",
          "syncookie_syncache_curr", "cs_min_conn_dur", "cs_mean_conn_dur",
          "syncookie_swsyncookie_instance", "syncookie_syncache_over",
          "syncookie_hw_accepts", "ephemeral_packets_received_total",
          "clientside_connections_total", "ephemeral_connections",
          "clientside_connections_evicted_total", "one_min_avg_usage_ratio",
          "ephemeral_connections_evicted_total", "clientside_slow_killed",
          "clientside_bytes_received_total", "ephemeral_connections_concurrent_max",
          "syncookie_hwsyncookie_instance", "clientside_packets_transmitted_total",
          "clientside_connections", "ephemeral_bytes_received_total",
          "clientside_packets_received_total", "requests_total", "cs_max_conn_dur",
          "syncookie_hw_syncookies", "clientside_connections_concurrent_max",
          "ephemeral_connections_total",
          "status_availability_state"].map (BuildFQName ns "vs")) := rfl
  refine ⟨⟨rfl, ?_, ?_⟩, ⟨rfl, ?_, ?_⟩⟩
  · have hk : (nodeMetrics ns).map (fun km => km.1)
        = ["serverside_bytesOut", "serverside_maxConns", "serverside_curConns",
            "serverside_pktsOut", "totRequests", "serverside_pktsIn", "serverside_totConns",
            "serverside_bytesIn", "curSessions", "status_availabilityState"] := rfl
    rw [hk]
    decide
  · rw [hnode]
    exact nodup_map_BuildFQName ns "node" _ (by decide) (by decide) (by decide)
  · have hk : (vsMetrics ns).map (fun km => km.1)
        = ["syncookie_accepts", "ephemeral_bytesOut", "clientside_bytesOut",
            "fiveMinAvgUsageRatio", "fiveSecAvgUsageRatio", "syncookie_syncookies",
            "ephemeral_slowKilled", "ephemeral_pktsOut", "syncookie_rejects",
            "syncookie_syncacheCurr", "csMinConnDur", "csMeanConnDur",
            "syncookie_swsyncookieInstance", "syncookie_syncacheOver", "syncookie_hwAccepts",
            "ephemeral_pktsIn", "clientside_totConns", "ephemeral_curConns",
            "clientside_evictedConns", "oneMinAvgUsageRatio", "ephemeral_evictedConns",
            "clientside_slowKilled", "clientside_bytesIn", "ephemeral_maxConns",
            "syncookie_hwsyncookieInstance", "clientside_pktsOut", "clientside_curConns",
            "ephemeral_bytesIn", "clientside_pktsIn", "totRequests", "csMaxConnDur",
            "syncookie_hwSyncookies", "clientside_maxConns", "ephemeral_totConns",
            "status_availabilityState"] := rfl
    rw [hk]
    decide
  · rw [hvs]
    exact nodup_map_BuildFQName ns "vs" _ (by decide) (by decide) (by decide)

/-! ## C14: the first matching rule -/

theorem find?_first_index {α : Type} (p : α → Bool) (l : List α)
    (h : ∃ x ∈ l, p x = true) :
    ∃ i, ∃ hi : i < l.length,
      l.find? p = some (l.get ⟨i, hi⟩)
        ∧ p (l.get ⟨i, hi⟩) = true
        ∧ ∀ j, ∀ hj : j < l.length, j < i → p (l.get ⟨j, hj⟩) = false := by
  induction l with
  | nil =>
    obtain ⟨x, hx, _⟩ := h
    exact absurd hx (List.not_mem_nil _)
  | cons a rest ih =>
    by_cases ha : p a = true
    · refine ⟨0, Nat.succ_pos _, ?_, ha, ?_⟩
      · simp [List.find?_cons, ha]
      · intro j _ hj
        exact absurd hj (Nat.not_lt_zero _)
    · have hrest : ∃ x ∈ rest, p x = true := by
        obtain ⟨x, hx, hpx⟩ := h
        rcases List.mem_cons.mp hx with rfl | hmem
        · exact absurd hpx ha
        · exact ⟨x, hmem, hpx⟩
      obtain ⟨i, hi, hfind, hpi, hbefore⟩ := ih hrest
      refine ⟨i + 1, Nat.succ_lt_succ hi, ?_, hpi, ?_⟩
      · simpa [List.find?_cons, ha] using hfind
      · intro j hj hji
        cases j with
        | zero => simpa using ha
        | succ k => exact hbefore k (Nat.lt_of_succ_lt_succ hj) (Nat.lt_of_succ_lt_succ hji)

/-- C14. For every configuration and every target that some explicit rule of
the configuration matches (so the configuration has at least one rule),
`CredentialsForTarget` returns exactly the credentials of the first rule in
declaration order that matches the target: it is the rule at some position
`i`, that rule matches, and no rule declared before it matches. -/
theorem CredentialsForTarget_first_match (isMatch : String → String → Bool) (c : Config)
    (target : String)
    (h : ∃ rule ∈ c.rules, rule.matchesTarget isMatch target = true) :
    ∃ i, ∃ hi : i < c.rules.length,
      CredentialsForTarget isMatch c target = Except.ok (c.rules.get ⟨i, hi⟩).credentials
        ∧ (c.rules.get ⟨i, hi⟩).matchesTarget isMatch target = true
        ∧ ∀ j, ∀ hj : j < c.rules.length, j < i →
            (c.rules.get ⟨j, hj⟩).matchesTarget isMatch target = false := by
  obtain ⟨i, hi, hfind, hpi, hbefore⟩ :=
    find?_first_index (TargetMatchRule.matchesTarget isMatch target) c.rules h
  refine ⟨i, hi, ?_, hpi, hbefore⟩
  unfold CredentialsForTarget
  rw [hfind]

/-- C14, witness: in `exampleConfig` the default rule is declared first, then
an exact rule for `lb1`, a glob rule and a second exact rule for `lb1`; the
target `lb1` gets the credentials of the first exact rule. -/
theorem CredentialsForTarget_first_match_witness :
    (∃ rule ∈ exampleConfig.rules, rule.matchesTarget exactOrStar "lb1" = true)
      ∧ (∃ i, ∃ hi : i < exampleConfig.rules.length,
          CredentialsForTarget exactOrStar exampleConfig "lb1"
              = Except.ok (exampleConfig.rules.get ⟨i, hi⟩).credentials
            ∧ (exampleConfig.rules.get ⟨i, hi⟩).matchesTarget exactOrStar "lb1" = true
            ∧ ∀ j, ∀ hj : j < exampleConfig.rules.length, j < i →
                (exampleConfig.rules.get ⟨j, hj⟩).matchesTarget exactOrStar "lb1" = false)
      ∧ CredentialsForTarget exactOrStar exampleConfig "lb1"
        = Except.ok { User := "a", Password := "a", BasicAuth := false } :=
  ⟨by decide, CredentialsForTarget_first_match exactOrStar exampleConfig "lb1" (by decide), rfl⟩

/-! ## C15: when the derivation of the labels fails -/

theorem splitChars_ne_nil (sep : Char) (cs : List Char) : splitChars sep cs ≠ [] := by
  cases cs with
  | nil => simp [splitChars]
  | cons c rest =>
    unfold splitChars
    by_cases hc : c = sep
    · simp [hc]
    · rw [if_neg hc]
      cases splitChars sep rest <;> simp

theorem splitChars_of_not_mem (sep : Char) (cs : List Char) (h : sep ∉ cs) :
    splitChars sep cs = [cs] := by
  induction cs with
  | nil => rfl
  | cons c rest ih =>
    have hc : c ≠ sep := fun e => h (e ▸ List.mem_cons_self _ _)
    have hrest : sep ∉ rest := fun hm => h (List.mem_cons_of_mem _ hm)
    unfold splitChars
    rw [if_neg hc, ih hrest]

theorem splitChars_append_sep (sep : Char) (pre rest : List Char) :
    splitChars sep (pre ++ sep :: rest) = splitChars sep pre ++ splitChars sep rest := by
  induction pre with
  | nil => simp [splitChars]
  | cons c pre ih =>
    by_cases hc : c = sep
    · rw [List.cons_append, splitChars, if_pos hc, ih]
      conv_rhs => rw [splitChars, if_pos hc]
      rfl
    · rw [List.cons_append, splitChars, if_neg hc, ih]
      conv_rhs => rw [splitChars, if_neg hc]
      cases hs : splitChars sep pre with
      | nil => exact absurd hs (splitChars_ne_nil sep pre)
      | cons seg segs => rfl

theorem ne_sep_of_not_mem (sep : Char) (cs : List Char) (h : sep ∉ cs) :
    ∀ c ∈ cs, decide (c ≠ sep) = true := by
  intro c hc
  simp only [ne_eq, decide_eq_true_eq]
  intro e
  exact h (e ▸ hc)

/-- A sequence in which `sep` occurs, cut at the last occurrence. -/
theorem exists_last_occurrence (sep : Char) (cs : List Char) (h : sep ∈ cs) :
    ∃ pre suf, cs = pre ++ sep :: suf ∧ sep ∉ suf := by
  obtain ⟨as, bs, hr, hnot⟩ := List.eq_append_cons_of_mem (List.mem_reverse.mpr h)
  refine ⟨bs.reverse, as.reverse, ?_, ?_⟩
  · have := congrArg List.reverse hr
    simpa using this
  · simpa using hnot

theorem segmentAfterLast_of_not_mem (sep : Char) (cs : List Char) (h : sep ∉ cs) :
    segmentAfterLast sep cs = cs := by
  unfold segmentAfterLast
  have hall : ∀ c ∈ cs.reverse, decide (c ≠ sep) = true :=
    ne_sep_of_not_mem sep cs.reverse (by simpa using h)
  rw [List.takeWhile_eq_self_iff.mpr hall, List.reverse_reverse]

theorem segmentAfterLast_append_sep (sep : Char) (pre suf : List Char) (h : sep ∉ suf) :
    segmentAfterLast sep (pre ++ sep :: suf) = suf := by
  unfold segmentAfterLast
  have hall : ∀ c ∈ suf.reverse, decide (c ≠ sep) = true :=
    ne_sep_of_not_mem sep suf.reverse (by simpa using h)
  rw [List.reverse_append, List.reverse_cons, List.append_assoc,
    List.takeWhile_append_of_pos hall]
  simp

theorem beforeLast_append_sep (sep : Char) (pre suf : List Char) (h : sep ∉ suf) :
    beforeLast sep (pre ++ sep :: suf) = pre := by
  unfold beforeLast
  have hall : ∀ c ∈ suf.reverse, decide (c ≠ sep) = true :=
    ne_sep_of_not_mem sep suf.reverse (by simpa using h)
  rw [List.reverse_append, List.reverse_cons, List.append_assoc,
    List.dropWhile_append_of_pos hall]
  simp

theorem segmentAfterFirst_append_sep (sep : Char) (pre rest : List Char) (h : sep ∉ pre) :
    segmentAfterFirst sep (pre ++ sep :: rest)
      = rest.takeWhile (fun c => decide (c ≠ sep)) := by
  unfold segmentAfterFirst
  rw [List.dropWhile_append_of_pos (ne_sep_of_not_mem sep pre h)]
  simp

theorem head?_splitChars (sep : Char) (cs : List Char) :
    (splitChars sep cs).head? = some (cs.takeWhile (fun c => decide (c ≠ sep))) := by
  by_cases h : sep ∈ cs
  · obtain ⟨pre, rest, rfl, hnot⟩ := List.eq_append_cons_of_mem h
    rw [splitChars_append_sep, splitChars_of_not_mem sep pre hnot,
      List.takeWhile_append_of_pos (ne_sep_of_not_mem sep pre hnot)]
    simp
  · rw [splitChars_of_not_mem sep cs h,
      List.takeWhile_eq_self_iff.mpr (ne_sep_of_not_mem sep cs h)]
    rfl

theorem getLast?_splitChars (sep : Char) (cs : List Char) :
    (splitChars sep cs).getLast? = some (segmentAfterLast sep cs) := by
  by_cases h : sep ∈ cs
  · obtain ⟨pre, suf, rfl, hnot⟩ := exists_last_occurrence sep cs h
    rw [splitChars_append_sep, splitChars_of_not_mem sep suf hnot,
      segmentAfterLast_append_sep sep pre suf hnot, List.getLast?_concat]
  · rw [splitChars_of_not_mem sep cs h, segmentAfterLast_of_not_mem sep cs h]
    rfl

theorem getElem?_one_splitChars (sep : Char) (cs : List Char) :
    (splitChars sep cs)[1]?
      = if sep ∈ cs then some (segmentAfterFirst sep cs) else none := by
  by_cases h : sep ∈ cs
  · rw [if_pos h]
    obtain ⟨pre, rest, rfl, hnot⟩ := List.eq_append_cons_of_mem h
    rw [splitChars_append_sep, splitChars_of_not_mem sep pre hnot,
      segmentAfterFirst_append_sep sep pre rest hnot, ← head?_splitChars]
    cases splitChars sep rest <;> simp
  · rw [if_neg h, splitChars_of_not_mem sep cs h]
    rfl

theorem reverse_getElem?_one_splitChars (sep : Char) (cs : List Char) :
    (splitChars sep cs).reverse[1]?
      = if sep ∈ cs then some (secondToLastSegment sep cs) else none := by
  by_cases h : sep ∈ cs
  · rw [if_pos h]
    obtain ⟨pre, suf, rfl, hnot⟩ := exists_last_occurrence sep cs h
    unfold secondToLastSegment
    rw [splitChars_append_sep, splitChars_of_not_mem sep suf hnot,
      beforeLast_append_sep sep pre suf hnot, ← getLast?_splitChars, List.reverse_append,
      ← List.head?_reverse]
    cases (splitChars sep pre).reverse <;> simp
  · rw [if_neg h, splitChars_of_not_mem sep cs h]
    rfl

theorem reverse_getElem?_one_Split (sep : Char) (s : String) :
    (strings.Split s sep).reverse[1]?
      = if sep ∈ s.data then some (String.mk (secondToLastSegment sep s.data)) else none := by
  unfold strings.Split
  rw [← List.map_reverse, List.getElem?_map, reverse_getElem?_one_splitChars]
  split <;> rfl

theorem getElem?_one_Split (sep : Char) (s : String) :
    (strings.Split s sep)[1]?
      = if sep ∈ s.data then some (String.mk (segmentAfterFirst sep s.data)) else none := by
  unfold strings.Split
  rw [List.getElem?_map, getElem?_one_splitChars]
  split <;> rfl

theorem getLast?_Split (sep : Char) (s : String) :
    (strings.Split s sep).getLast? = some (String.mk (segmentAfterLast sep s.data)) := by
  unfold strings.Split
  rw [List.getLast?_map, getLast?_splitChars]
  rfl

theorem keyLabels_eq (key : String) :
    keyLabels key
      = if '/' ∈ key.data ∧ '~' ∈ secondToLastSegment '/' key.data then
          some (String.mk (segmentAfterFirst '~' (secondToLastSegment '/' key.data)),
            String.mk (segmentAfterLast '~' (secondToLastSegment '/' key.data)))
        else none := by
  unfold keyLabels
  simp only [index_len_sub_two, index_len_sub_one, index_one]
  rw [reverse_getElem?_one_Split]
  by_cases hs : '/' ∈ key.data
  · rw [if_pos hs]
    simp only [getElem?_one_Split, getLast?_Split]
    by_cases ht : '~' ∈ secondToLastSegment '/' key.data
    · rw [if_pos ht, if_pos ⟨hs, ht⟩]
    · rw [if_neg ht, if_neg (fun hc => ht hc.2)]
  · rw [if_neg hs, if_neg (fun hc => hs hc.1)]

/-- C15. The derivation of `(partition, objectName)` in `Collect` fails with an
index out of range exactly when the record key contains no `/` or its
second-to-last `/`-delimited segment contains no `~`. For every other key it
succeeds: the partition is the segment after the first `~` and the object name
is the segment after the last `~`, both of the second-to-last `/`-delimited
segment. Examples: the keys `stats` and `node/stats` fail, and a device key
whose path is `~Common~app~node1` yields `Common` and `node1`. -/
theorem keyLabels_fails_exactly (key : String) :
    ((keyLabels key = none
        ↔ ('/' ∉ key.data ∨ '~' ∉ secondToLastSegment '/' key.data))
      ∧ keyLabels key
        = if '/' ∈ key.data ∧ '~' ∈ secondToLastSegment '/' key.data then
            some (String.mk (segmentAfterFirst '~' (secondToLastSegment '/' key.data)),
              String.mk (segmentAfterLast '~' (secondToLastSegment '/' key.data)))
          else none)
      ∧ (keyLabels "stats" = none
        ∧ keyLabels "node/stats" = none
        ∧ keyLabels "https://localhost/mgmt/tm/ltm/node/~Common~app~node1/stats"
          = some ("Common", "node1")) := by
  refine ⟨⟨?_, keyLabels_eq key⟩, by decide, by decide, by decide⟩
  rw [keyLabels_eq]
  by_cases h : '/' ∈ key.data ∧ '~' ∈ secondToLastSegment '/' key.data
  · rw [if_pos h]
    constructor
    · intro hc
      exact absurd hc (by simp)
    · rintro (h1 | h2)
      · exact absurd h.1 h1
      · exact absurd h.2 h2
  · rw [if_neg h]
    constructor
    · intro _
      by_cases hs : '/' ∈ key.data
      · exact Or.inr (fun ht => h ⟨hs, ht⟩)
      · exact Or.inl hs
    · intro _
      rfl

end BigipExporter
